import Mathlib

/-!
Verification of the AI-EduAnalytics analytics core: a shallow embedding of
the statistics calculator, question-success calculator, cache freshness
protocol, AI-response retry loops and the AI response section extractor,
together with theorems settling the specification claims.

Python floats are modelled as exact rationals, Python ints as `Int`/`Nat`,
raised exceptions as `Except`, and `None`-able values as `Option` or as the
`PyScalar` scalar-value type below.
-/

namespace EduAnalytics

/-! ### Python-style rounding (banker's rounding, `round`) -/

/-- Python `round(x)`: round to the nearest integer, ties to even. -/
def pyRoundInt (q : ℚ) : Int :=
  let f : Int := ⌊q⌋
  let frac : ℚ := q - (f : ℚ)
  if frac < 1/2 then f
  else if 1/2 < frac then f + 1
  else if f % 2 = 0 then f else f + 1

/-- Python `round(x, n)` for `n` decimal digits (result as an exact rational). -/
def pyRoundTo (q : ℚ) (digits : Nat) : ℚ :=
  let p : ℚ := (10 : ℚ) ^ digits
  ((pyRoundInt (q * p) : ℚ)) / p

/-! ### Character and string helpers (Python semantics on `List Char`) -/

/-- ASCII lower-casing of a character (`str.lower` restricted to ASCII). -/
def pyLowerChar (c : Char) : Char := c.toLower

def pyLower (l : List Char) : List Char := l.map pyLowerChar

/-- Python `str.strip()` with no argument: drop leading/trailing whitespace. -/
def pyStrip (l : List Char) : List Char :=
  (((l.dropWhile Char.isWhitespace).reverse).dropWhile Char.isWhitespace).reverse

def pyStripS (s : String) : String := ⟨pyStrip s.data⟩

/-- Whether `needle` occurs as a contiguous sublist of `hay` (Python `in`). -/
def containsSub (hay needle : List Char) : Bool :=
  decide (needle <:+: hay)

def containsSubS (hay needle : String) : Bool := containsSub hay.data needle.data

/-- Python `str.split(sep)` for a single separator character,
    keeping empty fragments. -/
def splitOnChar (sep : Char) (l : List Char) : List (List Char) :=
  match l with
  | [] => [[]]
  | c :: rest =>
    let r := splitOnChar sep rest
    if c = sep then [] :: r
    else
      match r with
      | [] => [[c]]
      | h :: t => (c :: h) :: t

/-- Python `'\n'.join(parts)`. -/
def joinNl : List (List Char) → List Char
  | [] => []
  | [x] => x
  | x :: xs => x ++ '\n' :: joinNl xs

/-! ### Decimal parsing: the fragment of Python `float(str)` used here
(optional sign, integer digits, optional fractional part; surrounding
whitespace stripped). -/

def digitsToNat (l : List Char) : Nat :=
  l.foldl (fun a c => a * 10 + (c.toNat - '0'.toNat)) 0

def parseFracDigits (l : List Char) : ℚ :=
  (l.reverse).foldl (fun acc c => (acc + ((c.toNat - '0'.toNat : Nat) : ℚ)) / 10) 0

def parseUnsignedDec (l : List Char) : Option ℚ :=
  let intPart := l.takeWhile Char.isDigit
  let rest := l.dropWhile Char.isDigit
  match rest with
  | [] => if intPart.isEmpty then none else some ((digitsToNat intPart : Nat) : ℚ)
  | '.' :: fracRest =>
    let fracPart := fracRest.takeWhile Char.isDigit
    let tail := fracRest.dropWhile Char.isDigit
    if tail.isEmpty ∧ ¬ (intPart.isEmpty ∧ fracPart.isEmpty) then
      some (((digitsToNat intPart : Nat) : ℚ) + parseFracDigits fracPart)
    else none
  | _ => none

/-- Model of `float(s)` on decimal literals; `none` models a raised
`ValueError`. -/
def strToFloat (s : String) : Option ℚ :=
  match pyStrip s.data with
  | '-' :: rest => (parseUnsignedDec rest).map (fun q => -q)
  | '+' :: rest => parseUnsignedDec rest
  | rest => parseUnsignedDec rest

/-! ### Python scalar values

A `PyScalar` is a JSON-ish scalar as it appears in a record field:
absent/null (`none`), a string, an int, or a float. -/

inductive PyScalar where
  | none
  | str (s : String)
  | int (n : Int)
  | float (q : ℚ)
deriving DecidableEq, Repr, BEq

/-- Python truthiness of a scalar. -/
def pyTruthy : PyScalar → Bool
  | .none => false
  | .str s => s ≠ ""
  | .int n => n ≠ 0
  | .float q => q ≠ 0

/-- Python `a or b` on scalars: `a` when truthy, else `b`. -/
def pyOr (a b : PyScalar) : PyScalar := if pyTruthy a then a else b

/-- Decimal rendering of a rational that is exactly representable with at
most six decimal digits (covers the float values appearing in the data). -/
def decimalRepr (q : ℚ) : String :=
  let sign := if q < 0 then "-" else ""
  let q := |q|
  let go (k : Nat) : Option String :=
    let scaled := q * (10 : ℚ) ^ k
    if scaled.den = 1 then
      if k = 0 then some (toString scaled.num ++ ".0")
      else
        let n := scaled.num.toNat
        let whole := n / 10 ^ k
        let frac := n % 10 ^ k
        let fracStr := toString frac
        let pad := String.mk (List.replicate (k - fracStr.length) '0')
        some (toString whole ++ "." ++ pad ++ fracStr)
    else Option.none
  sign ++ (((List.range 7).filterMap go).headD "inexact")

/-- Model of Python `str(x)` on the scalars used as question identifiers. -/
def pyStr : PyScalar → String
  | .none => "None"
  | .str s => s
  | .int n => toString n
  | .float q => decimalRepr q

/-- Model of Python `float(x)`; `Option.none` models a raised
`ValueError`/`TypeError`. -/
def pyFloat : PyScalar → Option ℚ
  | .none => Option.none
  | .str s => strToFloat s
  | .int n => some (n : ℚ)
  | .float q => some q

/-- `float(x)` in a context where the exception propagates. -/
def pyFloatE (x : PyScalar) : Except Unit ℚ :=
  match pyFloat x with
  | some q => .ok q
  | Option.none => .error ()

/-- Python `int(x)` truncation toward zero on a numeric scalar
(used for `int(qr_id)`). -/
def pyTruncInt (q : ℚ) : Int :=
  if 0 ≤ q then ⌊q⌋ else -⌊-q⌋

/-! ### `datetime` model (`utils/datetime_utils.py`)

A `PyDateTime` carries calendar fields plus an optional UTC offset in
minutes (`Option.none` = naive datetime). -/

structure PyDateTime where
  year : Int
  month : Nat
  day : Nat
  hour : Nat
  minute : Nat
  second : Nat
  usec : Nat
  tz : Option Int
deriving DecidableEq, Repr

/-- Days from civil date to the 1970-01-01 epoch (Gregorian calendar). -/
def daysFromCivil (y : Int) (m d : Nat) : Int :=
  let y1 : Int := if m ≤ 2 then y - 1 else y
  let era : Int := y1.fdiv 400
  let yoe : Int := y1 - era * 400
  let mp : Int := ((m : Int) + 9) % 12
  let doy : Int := (153 * mp + 2).fdiv 5 + (d : Int) - 1
  let doe : Int := yoe * 365 + yoe.fdiv 4 - yoe.fdiv 100 + doy
  era * 146097 + doe - 719468

def isLeapYear (y : Int) : Bool := y % 4 = 0 ∧ (y % 100 ≠ 0 ∨ y % 400 = 0)

def daysInMonth (y : Int) (m : Nat) : Nat :=
  if m = 2 then (if isLeapYear y then 29 else 28)
  else if m ∈ [4, 6, 9, 11] then 30 else 31

/-- Range validation performed by the `datetime` constructor. -/
def dtFieldsValid (y : Int) (mo d h mi s us : Nat) : Bool :=
  1 ≤ mo ∧ mo ≤ 12 ∧ 1 ≤ d ∧ d ≤ daysInMonth y mo ∧
    h ≤ 23 ∧ mi ≤ 59 ∧ s ≤ 59 ∧ us ≤ 999999

/-- Seconds since epoch ignoring the UTC offset. -/
def naiveSeconds (d : PyDateTime) : ℚ :=
  ((daysFromCivil d.year d.month d.day * 86400
      + (d.hour : Int) * 3600 + (d.minute : Int) * 60 + (d.second : Int) : Int) : ℚ)
    + (d.usec : ℚ) / 1000000

/-- `(a - b).total_seconds()`. Subtracting a naive from an aware datetime
(or vice versa) raises `TypeError` in Python, modelled by `Option.none`. -/
def dtSubSeconds (a b : PyDateTime) : Option ℚ :=
  match a.tz, b.tz with
  | Option.none, Option.none => some (naiveSeconds a - naiveSeconds b)
  | some ta, some tb =>
    some ((naiveSeconds a - (ta : ℚ) * 60) - (naiveSeconds b - (tb : ℚ) * 60))
  | _, _ => Option.none

/-! #### `datetime.fromisoformat` model -/

/-- Take exactly `n` leading digits. -/
def takeDigitsExact (n : Nat) (l : List Char) : Option (Nat × List Char) :=
  let ds := (l.take n).takeWhile Char.isDigit
  if ds.length = n then some (digitsToNat ds, l.drop n) else none

/-- Take one or up to `n` leading digits, greedily. -/
def takeDigitsUpTo (n : Nat) (l : List Char) : Option (Nat × List Char) :=
  let ds := (l.take n).takeWhile Char.isDigit
  if ds.isEmpty then none else some (digitsToNat ds, l.drop ds.length)

/-- Parse the optional UTC-offset suffix: empty, `Z`, or `±HH:MM`. -/
def parseIsoOffset (l : List Char) : Option (Option Int) :=
  match l with
  | [] => some Option.none
  | ['Z'] => some (some 0)
  | ['z'] => some (some 0)
  | sign :: rest =>
    if sign = '+' ∨ sign = '-' then
      match takeDigitsExact 2 rest with
      | some (oh, ':' :: rest2) =>
        match takeDigitsExact 2 rest2 with
        | some (om, []) =>
          if oh ≤ 23 ∧ om ≤ 59 then
            let v : Int := (oh : Int) * 60 + om
            some (some (if sign = '-' then -v else v))
          else none
        | _ => none
      | _ => none
    else none

/-- Parse `HH:MM[:SS[.ffffff]][offset]`. -/
def parseIsoTime (l : List Char) : Option (Nat × Nat × Nat × Nat × Option Int) :=
  match takeDigitsExact 2 l with
  | some (h, ':' :: rest) =>
    match takeDigitsExact 2 rest with
    | some (mi, rest2) =>
      let parseSec : Option (Nat × Nat × List Char) :=
        match rest2 with
        | ':' :: rest3 =>
          match takeDigitsExact 2 rest3 with
          | some (s, '.' :: rest4) =>
            match takeDigitsUpTo 6 rest4 with
            | some (f, rest5) =>
              let ds := (rest4.take 6).takeWhile Char.isDigit
              some (s, f * 10 ^ (6 - ds.length), rest5)
            | Option.none => Option.none
          | some (s, rest4) => some (s, 0, rest4)
          | Option.none => Option.none
        | _ => some (0, 0, rest2)
      match parseSec with
      | some (s, us, rest6) =>
        match parseIsoOffset rest6 with
        | some tz => some (h, mi, s, us, tz)
        | Option.none => Option.none
      | Option.none => Option.none
    | _ => none
  | _ => none

/-- Model of `datetime.fromisoformat`: `YYYY-MM-DD`, optionally followed by
a separator (`T`, `t` or space) and a time with optional offset. -/
def fromisoformat (s : String) : Option PyDateTime :=
  let l := s.data
  match takeDigitsExact 4 l with
  | some (y, '-' :: rest) =>
    match takeDigitsExact 2 rest with
    | some (mo, '-' :: rest2) =>
      match takeDigitsExact 2 rest2 with
      | some (d, rest3) =>
        match rest3 with
        | [] =>
          if dtFieldsValid y mo d 0 0 0 0 then
            some ⟨y, mo, d, 0, 0, 0, 0, Option.none⟩
          else Option.none
        | sep :: rest4 =>
          if sep = 'T' ∨ sep = 't' ∨ sep = ' ' then
            match parseIsoTime rest4 with
            | some (h, mi, sec, us, tz) =>
              if dtFieldsValid y mo d h mi sec us then
                some ⟨y, mo, d, h, mi, sec, us, tz⟩
              else Option.none
            | Option.none => Option.none
          else Option.none
      | _ => none
    | _ => none
  | _ => none

/-! #### `datetime.strptime` model (the directives used in
`common_formats`) -/

structure StFields where
  year : Nat
  month : Nat
  day : Nat
  hour : Nat
  minute : Nat
  second : Nat
  usec : Nat
deriving Repr

def stDefaults : StFields := ⟨1900, 1, 1, 0, 0, 0, 0⟩

/-- Greedy 1-or-2-digit numeric field with an upper bound (the two-digit
take is preferred whenever its value is in range, matching the
`_strptime` regexes for fields followed by a non-digit). -/
def takeField2 (hi : Nat) (l : List Char) : Option (Nat × List Char) :=
  match l with
  | c1 :: c2 :: rest =>
    if c1.isDigit ∧ c2.isDigit ∧ digitsToNat [c1, c2] ≤ hi then
      some (digitsToNat [c1, c2], rest)
    else if c1.isDigit ∧ (c1.toNat - '0'.toNat) ≤ hi then
      some (c1.toNat - '0'.toNat, c2 :: rest)
    else none
  | [c1] =>
    if c1.isDigit ∧ (c1.toNat - '0'.toNat) ≤ hi then
      some (c1.toNat - '0'.toNat, [])
    else none
  | [] => none

def strptimeGo : List Char → List Char → StFields → Option StFields
  | [], [], f => some f
  | [], _ :: _, _ => Option.none
  | '%' :: d :: fmtRest, inp, f =>
    match d with
    | 'Y' =>
      match takeDigitsExact 4 inp with
      | some (y, rest) => strptimeGo fmtRest rest { f with year := y }
      | Option.none => Option.none
    | 'm' =>
      match takeField2 12 inp with
      | some (m, rest) =>
        if 1 ≤ m then strptimeGo fmtRest rest { f with month := m } else Option.none
      | Option.none => Option.none
    | 'd' =>
      match takeField2 31 inp with
      | some (dd, rest) =>
        if 1 ≤ dd then strptimeGo fmtRest rest { f with day := dd } else Option.none
      | Option.none => Option.none
    | 'H' =>
      match takeField2 23 inp with
      | some (h, rest) => strptimeGo fmtRest rest { f with hour := h }
      | Option.none => Option.none
    | 'M' =>
      match takeField2 59 inp with
      | some (m, rest) => strptimeGo fmtRest rest { f with minute := m }
      | Option.none => Option.none
    | 'S' =>
      match takeField2 61 inp with
      | some (s, rest) => strptimeGo fmtRest rest { f with second := s }
      | Option.none => Option.none
    | 'f' =>
      match takeDigitsUpTo 6 inp with
      | some (fr, rest) =>
        let ds := (inp.take 6).takeWhile Char.isDigit
        strptimeGo fmtRest rest { f with usec := fr * 10 ^ (6 - ds.length) }
      | Option.none => Option.none
    | _ => Option.none
  | fc :: fmtRest, inp, f =>
    if fc.isWhitespace then
      let inpWs := inp.takeWhile Char.isWhitespace
      if inpWs.isEmpty then Option.none
      else strptimeGo fmtRest (inp.dropWhile Char.isWhitespace) f
    else
      match inp with
      | c :: rest =>
        if c.toLower = fc.toLower then strptimeGo fmtRest rest f else Option.none
      | [] => Option.none

/-- Model of `datetime.strptime(s, fmt)` (naive result; `Option.none`
models a raised `ValueError`). -/
def strptime (fmt s : String) : Option PyDateTime :=
  match strptimeGo fmt.data s.data stDefaults with
  | some f =>
    if dtFieldsValid (f.year : Int) f.month f.day f.hour f.minute f.second f.usec then
      some ⟨(f.year : Int), f.month, f.day, f.hour, f.minute, f.second, f.usec, Option.none⟩
    else Option.none
  | Option.none => Option.none

/-! #### `parse_timestamp`, `compare_timestamps`, `is_timestamp_newer` -/

/-- The possible runtime values handed to `parse_timestamp`
(`Union[str, datetime, None]` plus any other type). -/
inductive PyTimeVal where
  | none
  | dt (d : PyDateTime)
  | str (s : String)
  | other
deriving DecidableEq, Repr

def commonFormats : List String :=
  ["%Y-%m-%d %H:%M:%S",
   "%Y-%m-%d %H:%M:%S.%f",
   "%Y-%m-%dT%H:%M:%S",
   "%Y-%m-%dT%H:%M:%S.%f",
   "%Y-%m-%dT%H:%M:%SZ",
   "%Y-%m-%dT%H:%M:%S.%fZ",
   "%Y-%m-%d",
   "%d.%m.%Y",
   "%d/%m/%Y"]

def tryFormats : List String → String → Option PyDateTime
  | [], _ => Option.none
  | f :: rest, s =>
    match strptime f s with
    | some d => some d
    | Option.none => tryFormats rest s

/-- `timestamp.replace('Z', '+00:00')` (a single-character pattern). -/
def replaceZChars : List Char → List Char
  | [] => []
  | 'Z' :: rest => '+' :: '0' :: '0' :: ':' :: '0' :: '0' :: replaceZChars rest
  | c :: rest => c :: replaceZChars rest

def pyReplaceZ (s : String) : String := ⟨replaceZChars s.data⟩

/-- `parse_timestamp` from `utils/datetime_utils.py`: `None` for `None`,
the value itself for a `datetime`, `None` for other non-string types, and
for strings the ISO attempt (after `Z` → `+00:00` replacement), the raw
ISO attempt, then the `common_formats` list. -/
def parse_timestamp : PyTimeVal → Option PyDateTime
  | .none => Option.none
  | .dt d => some d
  | .other => Option.none
  | .str s =>
    match fromisoformat (pyReplaceZ s) with
    | some d => some d
    | Option.none =>
      match fromisoformat s with
      | some d => some d
      | Option.none => tryFormats commonFormats s

/-- `compare_timestamps`: `.error` models the uncaught `TypeError` raised
when subtracting a naive from an aware datetime. -/
def compare_timestamps (t1 t2 : PyTimeVal) (tol : ℚ) : Except Unit (Option Int) :=
  match parse_timestamp t1, parse_timestamp t2 with
  | some d1, some d2 =>
    match dtSubSeconds d1 d2 with
    | some diff =>
      .ok (some (if |diff| ≤ tol then 0 else if 0 < diff then 1 else -1))
    | Option.none => .error ()
  | _, _ => .ok Option.none

/-- `is_timestamp_newer`: comparison result equal to `1`. -/
def is_timestamp_newer (t1 t2 : PyTimeVal) (tol : ℚ) : Except Unit Bool :=
  (compare_timestamps t1 t2 tol).map (fun c => c = some 1)

/-! ### Cache freshness protocol
(`SupabaseService.get_test_analysis_data`, cache-validation block) -/

/-- The timestamp fields of a cached `test_analytics` row as returned by
`get_analytics`. -/
structure CachedAnalytics where
  calculated_at : PyTimeVal
  updated_at : PyTimeVal
deriving DecidableEq, Repr

/-- Outcome of the latest-result `created_at` query: backing-store error,
no rows, or a first row whose `created_at` field may itself be missing. -/
inductive LatestResultQuery where
  | qerror
  | noRows
  | row (created_at : PyTimeVal)
deriving DecidableEq, Repr

/-- Python truthiness of a timestamp-ish value. -/
def pyTruthyTime : PyTimeVal → Bool
  | .none => false
  | .str s => s ≠ ""
  | .dt _ => true
  | .other => true

/-- `cache_timestamp = cache_updated_at or cache_calculated_at`. -/
def effectiveCacheTs (c : CachedAnalytics) : PyTimeVal :=
  if pyTruthyTime c.updated_at then c.updated_at else c.calculated_at

/-- The cache-validation block of `get_test_analysis_data`: `true` when the
cached record is kept (cache hit), `false` when it is invalidated and
recomputation is forced. Every error path keeps the cache (fail-safe). -/
def cacheUsedAfterValidation (c : CachedAnalytics) (q : LatestResultQuery) : Bool :=
  let cacheTs := effectiveCacheTs c
  if pyTruthyTime cacheTs then
    match q with
    | .qerror => true
    | .noRows => true
    | .row created =>
      if pyTruthyTime created ∧ pyTruthyTime cacheTs then
        match is_timestamp_newer created cacheTs 1 with
        | .ok b => !b
        | .error _ => true
      else true
  else true

/-! ### Record model for the statistics calculators
(`SupabaseService._calculate_statistics`,
`SupabaseService._calculate_question_success`) -/

/-- One entry of a result's `question_results` array (a JSON object; each
`.get` of a missing key is `PyScalar.none`). -/
structure QuestionResult where
  questionId : PyScalar
  question_id : PyScalar
  id : PyScalar
  points : PyScalar
  point : PyScalar
deriving DecidableEq, Repr

/-- A row of the results table. `participated`/`cancelled` carry their
Python-truthiness (defaults `True`/`False`); `student_id` models
`r.get("student_id") or r.get("student")`; `question_results` is the
JSON-decoded array (`Option.none` when absent, null, string that fails to
decode, or not a list — all of which the code skips). -/
structure ResultRec where
  points : PyScalar
  total_points : PyScalar
  grade : PyScalar
  percentage : PyScalar
  participated : Bool
  cancelled : Bool
  student_id : Option String
  question_results : Option (List QuestionResult)
deriving DecidableEq, Repr

/-- A question of the test's `questions` array. -/
structure Question where
  id : PyScalar
  points : PyScalar
deriving DecidableEq, Repr

/-- The test row: `questions` is the JSON-decoded array (empty when
absent/invalid), `total_questions` is `test.get("total_questions", 0)`. -/
structure TestDef where
  questions : List Question
  total_questions : Nat
deriving DecidableEq, Repr

/-- A student row (only the gender field is used by the calculator). -/
structure StudentRec where
  gender : Option String
deriving DecidableEq, Repr

/-! ### `_calculate_question_success` -/

/-- Python `x == 0` on a scalar (string never equals an int). -/
def pyEqZero : PyScalar → Bool
  | .int n => n = 0
  | .float q => q = 0
  | _ => false

/-- `str.lower()` of a whole string (ASCII model). -/
def strLowerS (s : String) : String := ⟨pyLower s.data⟩

/-- `str(x).strip().lower()` as applied to question identifiers. -/
def idKey (x : PyScalar) : String := strLowerS (pyStripS (pyStr x))

/-- `question.get("id")` at 1-based position `i` (`PyScalar.none` when the
position is out of range and the default is kept). -/
def questionIdAt (questions : List Question) (i : Nat) : PyScalar :=
  match questions.get? (i - 1) with
  | some q => q.id
  | Option.none => PyScalar.none

/-- The `max_points` normalization: default `1`; `None` or `== 0` → `1`;
`float` conversion, failures and non-positive values → `1`. -/
def questionMaxPoints (questions : List Question) (i : Nat) : ℚ :=
  match questions.get? (i - 1) with
  | some q =>
    let mp := if q.points == PyScalar.none || pyEqZero q.points
              then PyScalar.int 1 else q.points
    match pyFloat mp with
    | some v => if v ≤ 0 then 1 else v
    | Option.none => 1
  | Option.none => 1

/-- The ordered list of acceptable match keys for ordinal `i`
(`possible_ids`): the real id (stripped, lowered) when truthy, then the
positional aliases. -/
def possibleIds (qid : PyScalar) (i : Nat) : List String :=
  (if pyTruthy qid then [idKey qid] else []) ++
    [s!"q{i}", toString i, s!"question{i}", s!"question_{i}"]

/-- `qr.get("questionId") or qr.get("question_id") or qr.get("id")`. -/
def qrIdOf (qr : QuestionResult) : PyScalar :=
  pyOr qr.questionId (pyOr qr.question_id qr.id)

/-- The id-based match test inside the scan over `question_results`:
string-key membership in `possible_ids` (case-insensitive) or a numeric id
whose truncation equals `i`. -/
def qrMatchesId (pids : List String) (i : Nat) (qr : QuestionResult) : Bool :=
  let qrId := qrIdOf qr
  pyTruthy qrId &&
    ((pids.map strLowerS).contains (idKey qrId) ||
      (match qrId with
       | .int n => n = (i : Int)
       | .float q => pyTruncInt q = (i : Int)
       | _ => false))

/-- Locate the sub-result for ordinal `i`: first the id scan, then the
guarded positional fallback (only when `i` is within both arrays, and only
when the candidate carries no id or a matching id). -/
def findQuestionResult (pids : List String) (i : Nat) (questionsLen : Nat)
    (qrs : List QuestionResult) : Option QuestionResult :=
  match qrs.find? (qrMatchesId pids i) with
  | some qr => some qr
  | Option.none =>
    if i ≤ qrs.length ∧ i ≤ questionsLen then
      match qrs.get? (i - 1) with
      | some cand =>
        let pid := qrIdOf cand
        if ¬ pyTruthy pid then some cand
        else if (pids.map strLowerS).contains (idKey pid) then some cand
        else Option.none
      | Option.none => Option.none
    else Option.none

/-- Points contributed by one result for ordinal `i`: `some p` (with `p`
clamped at `0`) when a sub-result is found and its points value converts,
`Option.none` when the result is skipped (no sub-results, no match, or a
conversion error). An explicit `0` is kept; missing points default to `0`. -/
def resultContribution (pids : List String) (i : Nat) (questionsLen : Nat)
    (r : ResultRec) : Option ℚ :=
  match r.question_results with
  | Option.none => Option.none
  | some qrs =>
    if qrs.isEmpty then Option.none
    else
      match findQuestionResult pids i questionsLen qrs with
      | some qr =>
        let pe := if qr.points != PyScalar.none then qr.points else qr.point
        let pe := if pe == PyScalar.none then PyScalar.int 0 else pe
        match pyFloat pe with
        | some p => some (if p < 0 then 0 else p)
        | Option.none => Option.none
      | Option.none => Option.none

/-- `total_points_earned` for ordinal `i` over the valid results. -/
def questionEarned (valid : List ResultRec) (questions : List Question) (i : Nat) : ℚ :=
  (valid.filterMap (resultContribution (possibleIds (questionIdAt questions i) i) i
      questions.length)).sum

/-- `students_with_answer` for ordinal `i`. -/
def questionAnswered (valid : List ResultRec) (questions : List Question) (i : Nat) : Nat :=
  (valid.filterMap (resultContribution (possibleIds (questionIdAt questions i) i) i
      questions.length)).length

/-- The per-ordinal success rate (an `int` in Python): the population
formula `min(100, round(earned / (max_points·|valid|) · 100))` when there
are valid results, the per-answer fallback when there are none but answers
exist (dead in practice), else `0`. -/
def questionRateAt (valid : List ResultRec) (questions : List Question) (i : Nat) : Int :=
  let mp := questionMaxPoints questions i
  let total := questionEarned valid questions i
  let answered := questionAnswered valid questions i
  let n := valid.length
  if 0 < mp ∧ 0 < n then
    min 100 (pyRoundInt ((total / (mp * (n : ℚ))) * 100))
  else if 0 < answered ∧ 0 < mp then
    min 100 (pyRoundInt (((total / (answered : ℚ)) / mp) * 100))
  else 0

/-- `_calculate_question_success`: `{}` when the questions array is empty;
all-`"0%"` when there are no valid (participated, non-cancelled) results;
otherwise one `"q{i}_success"` entry per ordinal `1..total_questions`,
where `total_questions` is the array length when non-empty. -/
def calculateQuestionSuccess (results : List ResultRec) (test : TestDef) :
    List (String × String) :=
  let questions := test.questions
  let total_questions := if 0 < questions.length then questions.length
                         else test.total_questions
  if questions.isEmpty then []
  else
    let valid := results.filter fun r => r.participated && !r.cancelled
    if valid.isEmpty then
      (List.range' 1 total_questions).map fun i => (s!"q{i}_success", "0%")
    else
      (List.range' 1 total_questions).map fun i =>
        (s!"q{i}_success", toString (questionRateAt valid questions i) ++ "%")

/-! ### `_calculate_statistics` -/

/-- `float(x)` applied to a field value after an `is not None` check,
inside `try/except` (parse failures are skipped). -/
def parsedNum (x : PyScalar) : Option ℚ :=
  match x with
  | PyScalar.none => Option.none
  | v => pyFloat v

def parsedGrade (r : ResultRec) : Option ℚ := parsedNum r.grade

/-- The Bulgarian rounding table: `≥5.50→6`, `≥4.50→5`, `≥3.50→4`,
`≥2.50→3`, `≥2.00→2`, below `2.00` → no bucket. -/
def gradeBucketOf (g : ℚ) : Option Nat :=
  if 5.5 ≤ g then some 6
  else if 4.5 ≤ g then some 5
  else if 3.5 ≤ g then some 4
  else if 2.5 ≤ g then some 3
  else if 2 ≤ g then some 2
  else Option.none

structure GradeDist where
  b6 : Nat
  b5 : Nat
  b4 : Nat
  b3 : Nat
  b2 : Nat
deriving DecidableEq, Repr

def GradeDist.total (d : GradeDist) : Nat := d.b6 + d.b5 + d.b4 + d.b3 + d.b2

def bumpBucket (d : GradeDist) : Option Nat → GradeDist
  | some 6 => { d with b6 := d.b6 + 1 }
  | some 5 => { d with b5 := d.b5 + 1 }
  | some 4 => { d with b4 := d.b4 + 1 }
  | some 3 => { d with b3 := d.b3 + 1 }
  | some 2 => { d with b2 := d.b2 + 1 }
  | _ => d

/-- The grade-distribution loop over the valid participated results. -/
def gradeDistribution (l : List ResultRec) : GradeDist :=
  l.foldl
    (fun d r =>
      match parsedGrade r with
      | some g => bumpBucket d (gradeBucketOf g)
      | Option.none => d)
    ⟨0, 0, 0, 0, 0⟩

/-- The statistics record assembled by `_calculate_statistics`. -/
structure Stats where
  total_students : Nat
  boys_count : Nat
  girls_count : Nat
  min_points : ℚ
  max_points : ℚ
  avg_points : ℚ
  avg_grade : ℚ
  avg_percentage : ℚ
  participated_count : Nat
  non_participating_count : Int
  grade_distribution : GradeDist
  pct6 : ℚ
  pct5 : ℚ
  pct4 : ℚ
  pct3 : ℚ
  pct2 : ℚ
  good_grades_count : Nat
  good_grades_percentage : ℚ
  pass_rate : ℚ
  question_success : List (String × String)
deriving DecidableEq, Repr

def genderIn (g : Option String) (opts : List String) : Bool :=
  match g with
  | some s => opts.contains s
  | Option.none => false

/-- The valid-results filter: a non-null `points` or `total_points`. -/
def validResults (results : List ResultRec) : List ResultRec :=
  results.filter fun r =>
    r.points != PyScalar.none || r.total_points != PyScalar.none

/-- The points/grade block of `_calculate_statistics` (lines 610–640):
`(min_points, max_points, avg_points, avg_grade)`. The `.error` case
models the uncaught `ValueError`/`TypeError` raised by `float(...)` on a
valid result whose (preferred) points value does not convert (line 613 —
the only raising statement of the calculator). -/
def statsPoints (valid : List ResultRec) : Except Unit (ℚ × ℚ × ℚ × ℚ) :=
  if valid.isEmpty then .ok ((0 : ℚ), (0 : ℚ), (0 : ℚ), (0 : ℚ))
  else
    match valid.mapM fun r =>
        pyFloatE (if r.points != PyScalar.none then r.points else r.total_points) with
    | .error e => .error e
    | .ok pointsList =>
      let min_points := pointsList.foldl min (pointsList.headD 0)
      let max_points := pointsList.foldl max (pointsList.headD 0)
      let avg_points := pyRoundTo (pointsList.sum / (pointsList.length : ℚ)) 1
      let grades := valid.filterMap parsedGrade
      let avg_grade :=
        if grades.isEmpty then 0 else pyRoundTo (grades.sum / (grades.length : ℚ)) 2
      .ok (min_points, max_points, avg_points, avg_grade)

/-- The remainder of `_calculate_statistics`: all quantities that cannot
raise, assembled into the returned record. -/
def statsAssemble (students : List StudentRec) (results : List ResultRec)
    (test : TestDef) (pointsStats : ℚ × ℚ × ℚ × ℚ) : Stats :=
  let total_students := students.length
  let boys_count := (students.filter fun s => genderIn s.gender ["М", "male", "м"]).length
  let girls_count := (students.filter fun s => genderIn s.gender ["Ж", "female", "ж"]).length
  let valid := validResults results
  let question_stats := calculateQuestionSuccess results test
  let valid_participated := valid.filter fun r => r.participated && !r.cancelled
  let participated_count := valid_participated.length
  let dist := gradeDistribution valid_participated
  let pct := fun (b : Nat) =>
    if 0 < participated_count then
      pyRoundTo (((b : ℚ) / (participated_count : ℚ)) * 100) 1
    else 0
  let partStats :=
    if ¬ valid_participated.isEmpty then
      let good_grades_count := dist.b5 + dist.b6
      let good_pct := pyRoundTo (((good_grades_count : ℚ) / (participated_count : ℚ)) * 100) 1
      let pass_count : Int := (dist.total : Int) - (dist.b2 : Int)
      let pass_rate := pyRoundTo (((pass_count : ℚ) / (participated_count : ℚ)) * 100) 1
      let percentages := valid_participated.filterMap fun r => parsedNum r.percentage
      let avg_percentage :=
        if percentages.isEmpty then 0
        else pyRoundTo (percentages.sum / (percentages.length : ℚ)) 1
      (pct dist.b6, pct dist.b5, pct dist.b4, pct dist.b3, pct dist.b2,
        good_pct, pass_rate, avg_percentage)
    else ((0 : ℚ), (0 : ℚ), (0 : ℚ), (0 : ℚ), (0 : ℚ), (0 : ℚ), (0 : ℚ), (0 : ℚ))
  let participating_ids :=
    (results.filter fun r => r.participated && !r.cancelled).filterMap fun r =>
      match r.student_id with
      | some s => if s ≠ "" then some s else Option.none
      | Option.none => Option.none
  let non_participating_count : Int :=
    (total_students : Int) - (participating_ids.eraseDups).length
  { total_students := total_students
    boys_count := boys_count
    girls_count := girls_count
    min_points := pointsStats.1
    max_points := pointsStats.2.1
    avg_points := pointsStats.2.2.1
    avg_grade := pointsStats.2.2.2
    avg_percentage := partStats.2.2.2.2.2.2.2
    participated_count := participated_count
    non_participating_count := non_participating_count
    grade_distribution := dist
    pct6 := partStats.1
    pct5 := partStats.2.1
    pct4 := partStats.2.2.1
    pct3 := partStats.2.2.2.1
    pct2 := partStats.2.2.2.2.1
    good_grades_count := dist.b5 + dist.b6
    good_grades_percentage := partStats.2.2.2.2.2.1
    pass_rate := partStats.2.2.2.2.2.2.1
    question_success := question_stats }

/-- `_calculate_statistics`: the raising points conversion followed by the
pure assembly. -/
def calculateStatistics (students : List StudentRec) (results : List ResultRec)
    (test : TestDef) : Except Unit Stats :=
  (statsPoints (validResults results)).map (statsAssemble students results test)

/-! ### A small backtracking regex engine

Implements the constructs appearing in the services' patterns: literals
(case-insensitive, all patterns are compiled with `IGNORECASE`),
character classes, greedy/lazy repetition, option, alternation, one
capture group, lookahead, and `$` (with and without `MULTILINE`).
Matching is leftmost, first-alternative-wins backtracking, as in Python's
`re`. A fuel argument bounds the recursion; the fuel supplied by the
entry points exceeds the search depth for these patterns. -/

inductive Rx where
  | eps
  | ch (p : Char → Bool)
  | seq (a b : Rx)
  | alt (a b : Rx)
  | star (a : Rx) (lazy : Bool)
  | opt (a : Rx)
  | grp (a : Rx)
  | look (a : Rx)
  | eos (multiline : Bool)

def Rx.size : Rx → Nat
  | .eps => 1
  | .ch _ => 1
  | .seq a b => a.size + b.size + 1
  | .alt a b => a.size + b.size + 1
  | .star a _ => a.size + 1
  | .opt a => a.size + 1
  | .grp a => a.size + 1
  | .look a => a.size + 1
  | .eos _ => 1

/-- Backtracking matcher in continuation style. `rest` is the input from
`pos`; `g` the capture-group span recorded so far; the continuation
receives the state after `r`. Returns the overall end position and group
span of the first (leftmost-biased) full match. -/
def rxRun (fuel : Nat) (r : Rx) (rest : List Char) (pos : Nat)
    (g : Option (Nat × Nat))
    (k : List Char → Nat → Option (Nat × Nat) → Option (Nat × Option (Nat × Nat))) :
    Option (Nat × Option (Nat × Nat)) :=
  match fuel with
  | 0 => Option.none
  | fuel + 1 =>
    match r with
    | .eps => k rest pos g
    | .ch p =>
      match rest with
      | c :: rs => if p c then k rs (pos + 1) g else Option.none
      | [] => Option.none
    | .seq a b => rxRun fuel a rest pos g (fun r2 p2 g2 => rxRun fuel b r2 p2 g2 k)
    | .alt a b =>
      match rxRun fuel a rest pos g k with
      | some res => some res
      | Option.none => rxRun fuel b rest pos g k
    | .opt a =>
      match rxRun fuel a rest pos g k with
      | some res => some res
      | Option.none => k rest pos g
    | .star a lzy =>
      if lzy then
        match k rest pos g with
        | some res => some res
        | Option.none =>
          rxRun fuel a rest pos g (fun r2 p2 g2 =>
            if p2 = pos then Option.none
            else rxRun fuel (.star a lzy) r2 p2 g2 k)
      else
        match rxRun fuel a rest pos g (fun r2 p2 g2 =>
            if p2 = pos then Option.none
            else rxRun fuel (.star a lzy) r2 p2 g2 k) with
        | some res => some res
        | Option.none => k rest pos g
    | .grp a => rxRun fuel a rest pos g (fun r2 p2 _ => k r2 p2 (some (pos, p2)))
    | .look a =>
      match rxRun fuel a rest pos g (fun _ p2 g2 => some (p2, g2)) with
      | some _ => k rest pos g
      | Option.none => Option.none
    | .eos multiline =>
      match rest with
      | [] => k rest pos g
      | ['\n'] => k rest pos g
      | '\n' :: _ => if multiline then k rest pos g else Option.none
      | _ => Option.none

def rxFuel (r : Rx) (len : Nat) : Nat := (r.size + 2) * (len + 2) * 4 + 64

/-- Anchored match attempt at absolute position `start`. -/
def rxMatchAt (r : Rx) (s : List Char) (start : Nat) :
    Option (Nat × Option (Nat × Nat)) :=
  rxRun (rxFuel r s.length) r (s.drop start) start Option.none
    (fun _ p g => some (p, g))

/-- Leftmost search from `start` (Python `re.search`): returns
`(matchStart, matchEnd, groupSpan)`. -/
def rxSearchAux (r : Rx) (s : List Char) : Nat → Nat → Option (Nat × Nat × Option (Nat × Nat))
  | 0, _ => Option.none
  | fuel + 1, start =>
    if s.length < start then Option.none
    else
      match rxMatchAt r s start with
      | some (e, g) => some (start, e, g)
      | Option.none => rxSearchAux r s fuel (start + 1)

def rxSearch (r : Rx) (s : List Char) : Option (Nat × Nat × Option (Nat × Nat)) :=
  rxSearchAux r s (s.length + 1) 0

def rxSearchFrom (r : Rx) (s : List Char) (off : Nat) :
    Option (Nat × Nat × Option (Nat × Nat)) :=
  rxSearchAux r s (s.length + 1 - off) off

def sliceChars (s : List Char) (a b : Nat) : List Char := (s.drop a).take (b - a)

/-- Python `re.split` on non-overlapping matches. -/
def rxSplitGo (r : Rx) (s : List Char) : Nat → Nat → List (List Char)
  | 0, off => [s.drop off]
  | fuel + 1, off =>
    match rxSearchFrom r s off with
    | some (st, en, _) =>
      if en ≤ st then [s.drop off]
      else ((s.drop off).take (st - off)) :: rxSplitGo r s fuel en
    | Option.none => [s.drop off]

def rxSplit (r : Rx) (s : List Char) : List (List Char) :=
  rxSplitGo r s (s.length + 1) 0

/-! Pattern building blocks. -/

/-- Case-insensitive literal character (`IGNORECASE`). -/
def rLit1 (c : Char) : Rx := .ch (fun x => x.toLower = c.toLower)

def rSeqList : List Rx → Rx
  | [] => .eps
  | [x] => x
  | x :: xs => .seq x (rSeqList xs)

def rLit (t : String) : Rx := rSeqList (t.data.map rLit1)

def rAltList : List Rx → Rx
  | [] => .eps
  | [x] => x
  | x :: xs => .alt x (rAltList xs)

/-- `\s` -/
def rWs : Rx := .ch Char.isWhitespace

/-- `[\s_-]` -/
def rWsUd : Rx := .ch fun c => c.isWhitespace || c = '_' || c = '-'

/-- `[:\s]` -/
def rColonWs : Rx := .ch fun c => c = ':' || c.isWhitespace

/-- `[^\n]` -/
def rNotNl : Rx := .ch fun c => c ≠ '\n'

/-- `\d` -/
def rDigit : Rx := .ch Char.isDigit

/-- `.` under `DOTALL` -/
def rDotAll : Rx := .ch fun _ => true

/-- `.` without `DOTALL` -/
def rDotNoNl : Rx := rNotNl

def rStar (r : Rx) : Rx := .star r false
def rLazyStar (r : Rx) : Rx := .star r true
def rPlus (r : Rx) : Rx := .seq r (.star r false)

/-! ### Gemini `_parse_ai_response` / `_fallback_parse`
(`services/gemini_service.py`, flags `IGNORECASE | DOTALL`) -/

def geminiSectionKeys : List String :=
  ["lowest_results_analysis", "highest_results_analysis", "gaps_analysis",
   "results_analysis", "improvement_measures"]

def geminiDefaultFor (k : String) : String :=
  if k = "lowest_results_analysis" then "Анализ на най-ниските резултати."
  else if k = "highest_results_analysis" then "Анализ на най-високите резултати."
  else if k = "gaps_analysis" then "Анализ на пропуските."
  else if k = "results_analysis" then "Общ анализ на резултатите."
  else if k = "improvement_measures" then "Мерки за подобрение."
  else "Анализ."

def geminiDefaults : List (String × String) :=
  geminiSectionKeys.map fun k => (k, geminiDefaultFor k)

/-- The tail of the stage-1 patterns:
`:?\s*(.*?)(?=\n\s*(?:alts|$))` with `DOTALL` on the group. -/
def rSectionTail (alts : List Rx) : Rx :=
  rSeqList [.opt (rLit1 ':'), rStar rWs, .grp (rLazyStar rDotAll),
    .look (rSeqList [rLit1 '\n', rStar rWs, rAltList (alts ++ [.eos false])])]

/-- `LOWEST[\s_-]*RESULTS?:?\s*(.*?)(?=\n\s*(?:HIGHEST|GAPS|RESULTS|IMPROVEMENT|$))` -/
def gemLowestEn : Rx :=
  rSeqList [rLit "LOWEST", rStar rWsUd, rLit "RESULT", .opt (rLit1 'S'),
    rSectionTail [rLit "HIGHEST", rLit "GAPS", rLit "RESULTS", rLit "IMPROVEMENT"]]

/-- `най-ниски\s+резултати:?\s*(.*?)(?=\n\s*(?:най-високи|пропуски|общ|мерки|$))` -/
def gemLowestBg : Rx :=
  rSeqList [rLit "най-ниски", rPlus rWs, rLit "резултати",
    rSectionTail [rLit "най-високи", rLit "пропуски", rLit "общ", rLit "мерки"]]

/-- `HIGHEST[\s_-]*RESULTS?:?\s*(.*?)(?=\n\s*(?:GAPS|RESULTS[\s_-]*ANALYSIS|IMPROVEMENT|$))` -/
def gemHighestEn : Rx :=
  rSeqList [rLit "HIGHEST", rStar rWsUd, rLit "RESULT", .opt (rLit1 'S'),
    rSectionTail [rLit "GAPS",
      rSeqList [rLit "RESULTS", rStar rWsUd, rLit "ANALYSIS"], rLit "IMPROVEMENT"]]

/-- `най-високи\s+резултати:?\s*(.*?)(?=\n\s*(?:пропуски|общ|мерки|$))` -/
def gemHighestBg : Rx :=
  rSeqList [rLit "най-високи", rPlus rWs, rLit "резултати",
    rSectionTail [rLit "пропуски", rLit "общ", rLit "мерки"]]

/-- `GAPS[\s_-]*ANALYSIS:?\s*(.*?)(?=\n\s*(?:RESULTS[\s_-]*ANALYSIS|IMPROVEMENT|$))` -/
def gemGapsEn : Rx :=
  rSeqList [rLit "GAPS", rStar rWsUd, rLit "ANALYSIS",
    rSectionTail [rSeqList [rLit "RESULTS", rStar rWsUd, rLit "ANALYSIS"],
      rLit "IMPROVEMENT"]]

/-- `пропуски:?\s*(.*?)(?=\n\s*(?:общ|мерки|$))` -/
def gemGapsBg : Rx :=
  rSeqList [rLit "пропуски", rSectionTail [rLit "общ", rLit "мерки"]]

/-- `RESULTS[\s_-]*ANALYSIS:?\s*(.*?)(?=\n\s*(?:IMPROVEMENT|$))` -/
def gemResultsEn : Rx :=
  rSeqList [rLit "RESULTS", rStar rWsUd, rLit "ANALYSIS",
    rSectionTail [rLit "IMPROVEMENT"]]

/-- `общ\s+анализ:?\s*(.*?)(?=\n\s*(?:мерки|$))` -/
def gemResultsBg : Rx :=
  rSeqList [rLit "общ", rPlus rWs, rLit "анализ", rSectionTail [rLit "мерки"]]

/-- `IMPROVEMENT[\s_-]*MEASURES?:?\s*(.*?)$` -/
def gemImprovementEn : Rx :=
  rSeqList [rLit "IMPROVEMENT", rStar rWsUd, rLit "MEASURE", .opt (rLit1 'S'),
    .opt (rLit1 ':'), rStar rWs, .grp (rLazyStar rDotAll), .eos false]

/-- `мерки:?\s*(.*?)$` -/
def gemImprovementBg : Rx :=
  rSeqList [rLit "мерки", .opt (rLit1 ':'), rStar rWs,
    .grp (rLazyStar rDotAll), .eos false]

def geminiKeyedPatterns : List (String × List Rx) :=
  [("lowest_results_analysis", [gemLowestEn, gemLowestBg]),
   ("highest_results_analysis", [gemHighestEn, gemHighestBg]),
   ("gaps_analysis", [gemGapsEn, gemGapsBg]),
   ("results_analysis", [gemResultsEn, gemResultsBg]),
   ("improvement_measures", [gemImprovementEn, gemImprovementBg])]

/-- Stage-1 pattern loop for one section key: first pattern whose group
strips to a non-empty text wins. -/
def tryPatterns (pats : List Rx) (s : List Char) : Option String :=
  match pats with
  | [] => Option.none
  | p :: rest =>
    match rxSearch p s with
    | some (_, _, some (a, b)) =>
      let content := pyStrip (sliceChars s a b)
      if content.isEmpty then tryPatterns rest s else some (String.mk content)
    | _ => tryPatterns rest s

def geminiStage1 (s : List Char) : List (String × String) :=
  geminiKeyedPatterns.filterMap fun kp =>
    (tryPatterns kp.2 s).map fun c => (kp.1, c)

/-! The `_fallback_parse` line scanner. Header tests use `re.match` with
`(?i)`. -/

/-- `(LOWEST|най-ниски)[\s_-]*(RESULTS?|резултати):?` -/
def gemHdrLowest : Rx :=
  rSeqList [.alt (rLit "LOWEST") (rLit "най-ниски"), rStar rWsUd,
    .alt (.seq (rLit "RESULT") (.opt (rLit1 'S'))) (rLit "резултати"), .opt (rLit1 ':')]

/-- `(HIGHEST|най-високи)[\s_-]*(RESULTS?|резултати):?` -/
def gemHdrHighest : Rx :=
  rSeqList [.alt (rLit "HIGHEST") (rLit "най-високи"), rStar rWsUd,
    .alt (.seq (rLit "RESULT") (.opt (rLit1 'S'))) (rLit "резултати"), .opt (rLit1 ':')]

/-- `(GAPS?|пропуски)[\s_-]*(ANALYSIS|анализ)?:?` -/
def gemHdrGaps : Rx :=
  rSeqList [.alt (.seq (rLit "GAP") (.opt (rLit1 'S'))) (rLit "пропуски"), rStar rWsUd,
    .opt (.alt (rLit "ANALYSIS") (rLit "анализ")), .opt (rLit1 ':')]

/-- `(RESULTS?[\s_-]*ANALYSIS|общ\s+анализ):?` -/
def gemHdrResults : Rx :=
  rSeqList [.alt (rSeqList [rLit "RESULT", .opt (rLit1 'S'), rStar rWsUd, rLit "ANALYSIS"])
      (rSeqList [rLit "общ", rPlus rWs, rLit "анализ"]), .opt (rLit1 ':')]

/-- `(IMPROVEMENT[\s_-]*MEASURES?|мерки):?` -/
def gemHdrImprovement : Rx :=
  rSeqList [.alt (rSeqList [rLit "IMPROVEMENT", rStar rWsUd, rLit "MEASURE", .opt (rLit1 'S')])
      (rLit "мерки"), .opt (rLit1 ':')]

/-- The `elif` chain over the header patterns on a stripped line. -/
def geminiHeaderOf (line : List Char) : Option String :=
  if (rxMatchAt gemHdrLowest line 0).isSome then some "lowest_results_analysis"
  else if (rxMatchAt gemHdrHighest line 0).isSome then some "highest_results_analysis"
  else if (rxMatchAt gemHdrGaps line 0).isSome then some "gaps_analysis"
  else if (rxMatchAt gemHdrResults line 0).isSome then some "results_analysis"
  else if (rxMatchAt gemHdrImprovement line 0).isSome then some "improvement_measures"
  else Option.none

/-- Python dict assignment on an insertion-ordered association list. -/
def dictSet (l : List (String × String)) (k v : String) : List (String × String) :=
  if l.any (fun kv => kv.1 = k) then l.map (fun kv => if kv.1 = k then (k, v) else kv)
  else l ++ [(k, v)]

structure ScanState where
  sections : List (String × String)
  current : Option String
  buf : List (List Char)

/-- Close the open section: `sections[current] = '\n'.join(text).strip()`
when both the section and its accumulated text are non-empty. -/
def closeSection (st : ScanState) : List (String × String) :=
  match st.current with
  | some k =>
    if st.buf.isEmpty then st.sections
    else dictSet st.sections k (String.mk (pyStrip (joinNl st.buf)))
  | Option.none => st.sections

def scanStep (st : ScanState) (line : List Char) : ScanState :=
  let ls := pyStrip line
  match geminiHeaderOf ls with
  | some key => { sections := closeSection st, current := some key, buf := [] }
  | Option.none =>
    if ¬ ls.isEmpty ∧ st.current.isSome then { st with buf := st.buf ++ [ls] }
    else st

/-- The emergency equal-split fallback: 5 contiguous chunks of
`max(len // 5, 100)` characters, stripped, empty chunks replaced by the
section defaults. -/
def geminiEmergency (s : List Char) : List (String × String) :=
  let chunk := max (s.length / 5) 100
  let slice := fun (a b : Nat) => String.mk (pyStrip (sliceChars s a b))
  let orD := fun (t : String) (k : String) => if t = "" then geminiDefaultFor k else t
  [("lowest_results_analysis", orD (slice 0 chunk) "lowest_results_analysis"),
   ("highest_results_analysis", orD (slice chunk (chunk * 2)) "highest_results_analysis"),
   ("gaps_analysis", orD (slice (chunk * 2) (chunk * 3)) "gaps_analysis"),
   ("results_analysis", orD (slice (chunk * 3) (chunk * 4)) "results_analysis"),
   ("improvement_measures", orD (String.mk (pyStrip (s.drop (chunk * 4))))
      "improvement_measures")]

/-- `_fallback_parse`: the line scanner, then the emergency split when
fewer than 5 sections were recovered. -/
def geminiFallbackParse (aiText : String) : List (String × String) :=
  if (pyStrip aiText.data).isEmpty then geminiDefaults
  else
    let s := aiText.data
    let lines := splitOnChar '\n' s
    let st := lines.foldl scanStep ⟨[], Option.none, []⟩
    let sections := closeSection st
    if sections.length < 5 then geminiEmergency s else sections

/-- `_parse_ai_response` (gemini): defaults on empty input; the regex
cascade; the fallback scanner when fewer than 5 sections were found. -/
def geminiParseAiResponse (aiText : String) : List (String × String) :=
  if (pyStrip aiText.data).isEmpty then geminiDefaults
  else
    let sections := geminiStage1 aiText.data
    if sections.length < 5 then geminiFallbackParse aiText else sections

/-! ### Groq `_parse_ai_response`
(`services/groq_service.py`, flags `IGNORECASE | DOTALL | MULTILINE`) -/

def groqSectionNames : List String :=
  ["LOWEST_RESULTS", "HIGHEST_RESULTS", "GAPS_ANALYSIS", "RESULTS_ANALYSIS",
   "IMPROVEMENT_MEASURES"]

def groqNameMapping : List (String × String) :=
  [("LOWEST_RESULTS", "lowest_results_analysis"),
   ("HIGHEST_RESULTS", "highest_results_analysis"),
   ("GAPS_ANALYSIS", "gaps_analysis"),
   ("RESULTS_ANALYSIS", "results_analysis"),
   ("IMPROVEMENT_MEASURES", "improvement_measures")]

def groqDefaultFor (k : String) : String :=
  if k = "lowest_results_analysis" then "Не е налична информация за най-ниските резултати."
  else if k = "highest_results_analysis" then "Не е налична информация за най-високите резултати."
  else if k = "gaps_analysis" then "Не е налична информация за пропуските."
  else if k = "results_analysis" then "Не е налична информация за общия анализ."
  else if k = "improvement_measures" then "Не са налични препоръки за подобрение."
  else "Не е налична информация."

def groqEmptyDefaults : List (String × String) :=
  groqNameMapping.map fun kv => (kv.2, groqDefaultFor kv.2)

/-- Tail `[:\s]*\n(.*?)(?=\n(?:alts|$))` of the uppercase-label patterns
(`$` is `MULTILINE` here). -/
def groqLabelTail (alts : List Rx) : Rx :=
  rSeqList [rStar rColonWs, rLit1 '\n', .grp (rLazyStar rDotAll),
    .look (rSeqList [rLit1 '\n', rAltList (alts ++ [.eos true])])]

/-- Tail `[^\n]*\n(.*?)(?=\n(?:alts|$))` of the Bulgarian patterns. -/
def groqBgTail (alts : List Rx) : Rx :=
  rSeqList [rStar rNotNl, rLit1 '\n', .grp (rLazyStar rDotAll),
    .look (rSeqList [rLit1 '\n', rAltList (alts ++ [.eos true])])]

def groqLowestEn : Rx :=
  .seq (rLit "LOWEST_RESULTS")
    (groqLabelTail [rLit "HIGHEST_RESULTS", rLit "GAPS_ANALYSIS",
      rLit "RESULTS_ANALYSIS", rLit "IMPROVEMENT_MEASURES"])

/-- `най-ниски.*?резултат[^\n]*\n(.*?)(?=\n(?:най-висок|пропуск|общ|подобр|$))` -/
def groqLowestBg : Rx :=
  rSeqList [rLit "най-ниски", rLazyStar rDotAll, rLit "резултат",
    groqBgTail [rLit "най-висок", rLit "пропуск", rLit "общ", rLit "подобр"]]

def groqHighestEn : Rx :=
  .seq (rLit "HIGHEST_RESULTS")
    (groqLabelTail [rLit "GAPS_ANALYSIS", rLit "RESULTS_ANALYSIS",
      rLit "IMPROVEMENT_MEASURES", rLit "LOWEST_RESULTS"])

def groqHighestBg : Rx :=
  rSeqList [rLit "най-висок", rLazyStar rDotAll, rLit "резултат",
    groqBgTail [rLit "пропуск", rLit "общ", rLit "подобр", rLit "най-нисък"]]

def groqGapsEn : Rx :=
  .seq (rLit "GAPS_ANALYSIS")
    (groqLabelTail [rLit "RESULTS_ANALYSIS", rLit "IMPROVEMENT_MEASURES",
      rLit "LOWEST_RESULTS", rLit "HIGHEST_RESULTS"])

def groqGapsBg : Rx :=
  .seq (rLit "пропуск")
    (groqBgTail [rLit "общ", rLit "подобр", rLit "най-нисък", rLit "най-висок"])

def groqResultsEn : Rx :=
  .seq (rLit "RESULTS_ANALYSIS")
    (groqLabelTail [rLit "IMPROVEMENT_MEASURES", rLit "LOWEST_RESULTS",
      rLit "HIGHEST_RESULTS", rLit "GAPS_ANALYSIS"])

def groqResultsBg : Rx :=
  rSeqList [rLit "общ", rLazyStar rDotAll, rLit "анализ",
    groqBgTail [rLit "подобр", rLit "най-нисък", rLit "най-висок", rLit "пропуск"]]

/-- `IMPROVEMENT_MEASURES[:\s]*\n(.*?)(?=\n(?:...|$)|$)` — the lookahead
has an extra top-level `$` alternative. -/
def groqImprovementEn : Rx :=
  rSeqList [rLit "IMPROVEMENT_MEASURES", rStar rColonWs, rLit1 '\n',
    .grp (rLazyStar rDotAll),
    .look (.alt
      (rSeqList [rLit1 '\n', rAltList [rLit "LOWEST_RESULTS", rLit "HIGHEST_RESULTS",
        rLit "GAPS_ANALYSIS", rLit "RESULTS_ANALYSIS", .eos true]])
      (.eos true))]

def groqImprovementBg : Rx :=
  rSeqList [rLit "подобр", rStar rNotNl, rLit1 '\n',
    .grp (rLazyStar rDotAll),
    .look (.alt
      (rSeqList [rLit1 '\n', rAltList [rLit "най-нисък", rLit "най-висок",
        rLit "пропуск", rLit "общ", .eos true]])
      (.eos true))]

def groqKeyedPatterns : List (String × List Rx) :=
  [("LOWEST_RESULTS", [groqLowestEn, groqLowestBg]),
   ("HIGHEST_RESULTS", [groqHighestEn, groqHighestBg]),
   ("GAPS_ANALYSIS", [groqGapsEn, groqGapsBg]),
   ("RESULTS_ANALYSIS", [groqResultsEn, groqResultsBg]),
   ("IMPROVEMENT_MEASURES", [groqImprovementEn, groqImprovementBg])]

/-- The per-section pattern loop with the `len(text) > 10` minimum. -/
def groqTryPatterns (pats : List Rx) (s : List Char) : Option String :=
  match pats with
  | [] => Option.none
  | p :: rest =>
    match rxSearch p s with
    | some (_, _, some (a, b)) =>
      let t := pyStrip (sliceChars s a b)
      if ¬ t.isEmpty ∧ 10 < t.length then some (String.mk t)
      else groqTryPatterns rest s
    | _ => groqTryPatterns rest s

def groqStage1 (s : List Char) : List (String × String) :=
  groqKeyedPatterns.filterMap fun kp =>
    (groqTryPatterns kp.2 s).map fun c => (kp.1, c)

/-- `\n\s*(?:LOWEST_RESULTS|...)[:\s]*\n`, the `re.split` delimiter. -/
def groqSplitRx : Rx :=
  rSeqList [rLit1 '\n', rStar rWs,
    rAltList (groqSectionNames.map rLit), rStar rColonWs, rLit1 '\n']

/-- The `re.split` fallback pass: assign stripped non-empty parts to the
section names positionally. -/
def groqSplitFold (secs : List (String × String))
    (pairs : List (String × List Char)) : List (String × String) :=
  pairs.foldl
    (fun secs np =>
      let p := pyStrip np.2
      if p.isEmpty then secs else dictSet secs np.1 (String.mk p))
    secs

/-- Default-fill of the sections that are still missing. -/
def groqFillMissing (secs : List (String × String)) : List (String × String) :=
  groqSectionNames.foldl
    (fun secs n =>
      if secs.any (fun kv => kv.1 = n) then secs
      else secs ++ [(n, "Не е налична информация за " ++ n ++ ".")])
    secs

/-- The final renaming of the uppercase section names to the document
keys. -/
def groqFinalize (secs : List (String × String)) : List (String × String) :=
  groqNameMapping.map fun kv =>
    match secs.lookup kv.1 with
    | some v => (kv.2, v)
    | Option.none => (kv.2, groqDefaultFor kv.2)

/-- The sections dictionary built by the groq parser on non-empty input. -/
def groqSectionsOf (s : List Char) : List (String × String) :=
  let sections := groqStage1 s
  let sections :=
    if sections.length < 2 then
      let parts := rxSplit groqSplitRx s
      if 2 ≤ parts.length then
        groqSplitFold sections (groqSectionNames.zip ((parts.drop 1).take 5))
      else sections
    else sections
  groqFillMissing sections

/-- `_parse_ai_response` (groq): defaults on empty input; the labelled
regex pass (minimum 11 chars per section); a `re.split` fallback when
fewer than 2 sections were found; default-fill of missing sections; final
renaming to the document keys. -/
def groqParseAiResponse (aiText : String) : List (String × String) :=
  if (pyStrip aiText.data).isEmpty then groqEmptyDefaults
  else groqFinalize (groqSectionsOf aiText.data)

/-! ### AI-backend retry loops
(`GroqService._call_groq_with_retry`, `GeminiService._call_gemini_with_retry`;
both services set `max_retries = 3`, `retry_delay = 2`) -/

/-- The outcome of one API call attempt: an exception with its `str(e)`
text, or a response whose extracted content is the given text. -/
inductive AIAttempt where
  | raises (msg : String)
  | returns (text : String)
deriving DecidableEq, Repr

/-- One iteration of the `try` body: strip the text; empty text raises
("Empty text ..."), which the surrounding `except` then handles like any
other failure. -/
def evalAttempt (emptyMsg : String) : AIAttempt → Except String String
  | .raises m => .error m
  | .returns t =>
    let tt := pyStripS t
    if tt = "" then .error emptyMsg else .ok tt

/-- Rate-limit detection on `str(e)`:
`"rate_limit" in lower or "429" in details or "quota" in lower`. -/
def groqIsRateLimitMsg (details : String) : Bool :=
  containsSubS (strLowerS details) "rate_limit" || containsSubS details "429" ||
    containsSubS (strLowerS details) "quota"

/-- `retry.*?(\d+(?:\.\d+)?)\s*s` with `IGNORECASE` (no `DOTALL`). -/
def retryHintRx : Rx :=
  rSeqList [rLit "retry", rLazyStar rDotNoNl,
    .grp (rSeqList [rPlus rDigit, .opt (.seq (rLit1 '.') (rPlus rDigit))]),
    rStar rWs, rLit1 's']

/-- The retry-delay computation of the rate-limit branch: starts at
`self.retry_delay = 2`; when the message hints a delay, `max(int(float(hint)), 5)`. -/
def groqRetryAfter (details : String) : Int :=
  let rd : Int := 2
  if containsSubS (strLowerS details) "retry" then
    match rxSearch retryHintRx details.data with
    | some (_, _, some (a, b)) =>
      match strToFloat (String.mk (sliceChars details.data a b)) with
      | some q => max (pyTruncInt q) 5
      | Option.none => rd
    | _ => rd
  else rd

def groqUserMsg (retry_delay : Int) : String :=
  "Квотата за Groq API е изчерпана. Моля, проверете вашия план. " ++
    (if 2 < retry_delay then "Опитайте отново след " ++ toString retry_delay ++ " секунди."
     else "")

/-- The distinguished error raised by the groq service. -/
structure GroqError where
  msg : String
  is_rate_limit : Bool
  retry_after : Option Int
deriving DecidableEq, Repr

/-- The post-loop generic failure message (the exception type name of the
last error is not tracked by the model). -/
def genericGroqMsg (lastErr : Option String) : String :=
  "Неуспешно генериране на AI анализ след 3 опита" ++
    (match lastErr with
     | some d => if d.length < 200 then ": " ++ d else ""
     | Option.none => "")

/-- `for attempt in range(1, max_retries + 1)` with the groq handler:
rate-limited failures retry while `attempt < 3` and are raised as a
flagged error on the final attempt; other failures retry, the loop
falling through to a generic error. -/
def groqAttemptLoop (call : Nat → AIAttempt) :
    List Nat → Option String → Except GroqError String
  | [], lastErr => .error ⟨genericGroqMsg lastErr, false, Option.none⟩
  | a :: rest, _ =>
    match evalAttempt "Empty text in Groq response" (call a) with
    | .ok t => .ok t
    | .error details =>
      if groqIsRateLimitMsg details then
        if a < 3 then groqAttemptLoop call rest (some details)
        else .error ⟨groqUserMsg (groqRetryAfter details), true,
          some (groqRetryAfter details)⟩
      else groqAttemptLoop call rest (some details)

def callGroqWithRetry (call : Nat → AIAttempt) : Except GroqError String :=
  groqAttemptLoop call [1, 2, 3] Option.none

def genericGeminiMsg (lastErr : Option String) : String :=
  "Failed to generate AI analysis after 3 attempts" ++
    (match lastErr with
     | some d => ": " ++ d
     | Option.none => "")

/-- The gemini retry loop: every failure is retried alike; after three
failures a generic `GeminiAPIError` is raised (no rate-limit flag exists). -/
def geminiAttemptLoop (call : Nat → AIAttempt) :
    List Nat → Option String → Except String String
  | [], lastErr => .error (genericGeminiMsg lastErr)
  | a :: rest, _ =>
    match evalAttempt "Empty text in Gemini response" (call a) with
    | .ok t => .ok t
    | .error details => geminiAttemptLoop call rest (some details)

def callGeminiWithRetry (call : Nat → AIAttempt) : Except String String :=
  geminiAttemptLoop call [1, 2, 3] Option.none

/-! ## Theorems -/

/-- C1. Cache freshness decision: with both timestamps present and
comparable with difference `δ` seconds, the cache is invalidated (treated
as a miss) exactly when the newest result is strictly more than 1 second
newer; a query error, absent rows, a missing or falsy timestamp on either
side, an unparseable timestamp, or an incomparable (naive vs aware) pair
all fail safe to using the cached record. -/
theorem C1_cache_freshness :
    (∀ (c : CachedAnalytics) (created : PyTimeVal) (d1 d2 : PyDateTime) (δ : ℚ),
      pyTruthyTime created = true →
      pyTruthyTime (effectiveCacheTs c) = true →
      parse_timestamp created = some d1 →
      parse_timestamp (effectiveCacheTs c) = some d2 →
      dtSubSeconds d1 d2 = some δ →
      (cacheUsedAfterValidation c (.row created) = false ↔ 1 < δ)) ∧
    (∀ c, cacheUsedAfterValidation c .qerror = true) ∧
    (∀ c, cacheUsedAfterValidation c .noRows = true) ∧
    (∀ c created, pyTruthyTime created = false →
      cacheUsedAfterValidation c (.row created) = true) ∧
    (∀ c q, pyTruthyTime (effectiveCacheTs c) = false →
      cacheUsedAfterValidation c q = true) ∧
    (∀ c created, parse_timestamp created = Option.none →
      cacheUsedAfterValidation c (.row created) = true) ∧
    (∀ c created d1 d2,
      parse_timestamp created = some d1 →
      parse_timestamp (effectiveCacheTs c) = some d2 →
      dtSubSeconds d1 d2 = Option.none →
      cacheUsedAfterValidation c (.row created) = true) := by
  refine ⟨?_, ?_, ?_, ?_, ?_, ?_, ?_⟩
  · intro c created d1 d2 δ h1 h2 h3 h4 h5
    simp only [cacheUsedAfterValidation, is_timestamp_newer, compare_timestamps,
      h1, h2, h3, h4, h5, if_true, and_self, Except.map]
    by_cases habs : |δ| ≤ 1
    · have hle : δ ≤ 1 := (abs_le.mp habs).2
      simp only [habs, if_true]
      constructor
      · intro h; simp at h
      · intro h; linarith
    · by_cases hpos : 0 < δ
      · have : 1 < δ := by
          rcases abs_cases δ with ⟨he, _⟩ | ⟨_, hneg⟩
          · rw [he] at habs; linarith [not_le.mp habs]
          · linarith
        simp only [habs, hpos, if_false, if_true]
        simp [this]
      · have : ¬ (1 < δ) := by intro h; exact hpos (by linarith)
        simp only [habs, hpos, if_false]
        simp [this]
  · intro c
    simp only [cacheUsedAfterValidation]
    split <;> rfl
  · intro c
    simp only [cacheUsedAfterValidation]
    split <;> rfl
  · intro c created h
    simp only [cacheUsedAfterValidation, h]
    split <;> simp
  · intro c q h
    simp only [cacheUsedAfterValidation, h]
    rfl
  · intro c created h
    simp only [cacheUsedAfterValidation, is_timestamp_newer, compare_timestamps, h]
    split <;> simp [Except.map]
  · intro c created d1 d2 h1 h2 h3
    simp only [cacheUsedAfterValidation, is_timestamp_newer, compare_timestamps,
      h1, h2, h3]
    split <;> simp [Except.map]

/-- Witness for C1 at the spec's freshness scenario: a cache stamped
`2024-01-01 12:00:00`, a newest result 2 s later forces a miss, one 0.5 s
later keeps the cache, and a query error keeps the cache. -/
theorem C1_cache_freshness_witness :
    cacheUsedAfterValidation ⟨PyTimeVal.none, .dt ⟨2024, 1, 1, 12, 0, 0, 0, Option.none⟩⟩
      (.row (.dt ⟨2024, 1, 1, 12, 0, 2, 0, Option.none⟩)) = false ∧
    cacheUsedAfterValidation ⟨PyTimeVal.none, .dt ⟨2024, 1, 1, 12, 0, 0, 0, Option.none⟩⟩
      (.row (.dt ⟨2024, 1, 1, 12, 0, 0, 500000, Option.none⟩)) = true ∧
    cacheUsedAfterValidation ⟨PyTimeVal.none, .dt ⟨2024, 1, 1, 12, 0, 0, 0, Option.none⟩⟩
      .qerror = true := by
  refine ⟨?_, ?_, ?_⟩
  · exact (C1_cache_freshness.1
      ⟨PyTimeVal.none, .dt ⟨2024, 1, 1, 12, 0, 0, 0, Option.none⟩⟩
      (.dt ⟨2024, 1, 1, 12, 0, 2, 0, Option.none⟩)
      ⟨2024, 1, 1, 12, 0, 2, 0, Option.none⟩ ⟨2024, 1, 1, 12, 0, 0, 0, Option.none⟩
      2 rfl rfl rfl rfl (by with_unfolding_all decide)).mpr (by norm_num)
  · cases hb : cacheUsedAfterValidation
      ⟨PyTimeVal.none, .dt ⟨2024, 1, 1, 12, 0, 0, 0, Option.none⟩⟩
      (.row (.dt ⟨2024, 1, 1, 12, 0, 0, 500000, Option.none⟩)) with
    | false =>
      exact absurd ((C1_cache_freshness.1
        ⟨PyTimeVal.none, .dt ⟨2024, 1, 1, 12, 0, 0, 0, Option.none⟩⟩
        (.dt ⟨2024, 1, 1, 12, 0, 0, 500000, Option.none⟩)
        ⟨2024, 1, 1, 12, 0, 0, 500000, Option.none⟩ ⟨2024, 1, 1, 12, 0, 0, 0, Option.none⟩
        (1/2) rfl rfl rfl rfl (by with_unfolding_all decide)).mp hb) (by norm_num)
    | true => rfl
  · exact C1_cache_freshness.2.1 _

theorem tryFormats_eq_none (s : String) :
    ∀ l : List String, (∀ fmt ∈ l, strptime fmt s = Option.none) →
      tryFormats l s = Option.none := by
  intro l
  induction l with
  | nil => intro _; rfl
  | cons f rest ih =>
    intro h
    simp only [tryFormats]
    rw [h f (by simp)]
    exact ih fun fmt hm => h fmt (by simp [hm])

/-- C10. `parse_timestamp` totality: the result is always `some datetime`
or `None` (in the embedding, by type); a datetime input is returned
unchanged; `None` and non-string non-datetime inputs give `None`; and a
string accepted by no supported format (neither ISO attempt, no
`common_formats` entry) gives `None`. -/
theorem C10_parse_timestamp_total :
    (∀ d, parse_timestamp (.dt d) = some d) ∧
    parse_timestamp .none = Option.none ∧
    parse_timestamp .other = Option.none ∧
    (∀ s : String,
      fromisoformat (pyReplaceZ s) = Option.none →
      fromisoformat s = Option.none →
      (∀ fmt ∈ commonFormats, strptime fmt s = Option.none) →
      parse_timestamp (.str s) = Option.none) := by
  refine ⟨fun d => rfl, rfl, rfl, ?_⟩
  intro s h1 h2 h3
  simp only [parse_timestamp, h1, h2]
  exact tryFormats_eq_none s commonFormats h3

/-- Witness for C10 at the garbage string `"hello"`. -/
theorem C10_parse_timestamp_total_witness :
    parse_timestamp (.str "hello") = Option.none :=
  C10_parse_timestamp_total.2.2.2 "hello" (by decide) (by decide) (by decide)

theorem questionMaxPoints_pos (questions : List Question) (i : Nat) :
    0 < questionMaxPoints questions i := by
  unfold questionMaxPoints
  rcases questions.get? (i - 1) with _ | q
  · norm_num
  · dsimp only
    split
    · split
      · norm_num
      · exact lt_of_not_le (by assumption)
    · norm_num

theorem resultContribution_nonneg (pids : List String) (i questionsLen : Nat)
    (r : ResultRec) (p : ℚ) (h : resultContribution pids i questionsLen r = some p) :
    0 ≤ p := by
  unfold resultContribution at h
  split at h
  · exact absurd h (by simp)
  · split at h
    · exact absurd h (by simp)
    · split at h
      · dsimp only [] at h
        split at h
        · rename_i p' hp'
          injection h with h'
          subst h'
          split
          · exact le_refl 0
          · exact le_of_not_lt (by assumption)
        · exact absurd h (by simp)
      · exact absurd h (by simp)

theorem questionEarned_nonneg (valid : List ResultRec) (questions : List Question)
    (i : Nat) : 0 ≤ questionEarned valid questions i := by
  unfold questionEarned
  apply List.sum_nonneg
  intro x hx
  rcases List.mem_filterMap.mp hx with ⟨r, _, hr⟩
  exact resultContribution_nonneg _ _ _ _ _ hr

theorem pyRoundInt_nonneg (q : ℚ) (h : 0 ≤ q) : 0 ≤ pyRoundInt q := by
  have hf : (0 : Int) ≤ ⌊q⌋ := Int.floor_nonneg.mpr h
  unfold pyRoundInt
  dsimp only
  split_ifs <;> omega

/-- C3. Question success rate: for every ordinal with at least one valid
(participated, non-cancelled) result the rate is
`min(100, round(100·earned / (max_points·|valid|)))` — the denominator
counting all valid results; the normalized `max_points` is always
positive; every rate (also on the no-data paths) lies in `[0, 100]`; and
the computed map carries exactly this rate for each in-range ordinal. -/
theorem C3_question_success_rate :
    (∀ (valid : List ResultRec) (questions : List Question) (i : Nat),
      valid ≠ [] →
      questionRateAt valid questions i =
        min 100 (pyRoundInt (100 * questionEarned valid questions i /
          (questionMaxPoints questions i * (valid.length : ℚ))))) ∧
    (∀ questions i, 0 < questionMaxPoints questions i) ∧
    (∀ valid questions i,
      0 ≤ questionRateAt valid questions i ∧ questionRateAt valid questions i ≤ 100) ∧
    (∀ (results : List ResultRec) (test : TestDef) (i : Nat),
      results.filter (fun r => r.participated && !r.cancelled) ≠ [] →
      1 ≤ i → i ≤ test.questions.length →
      (s!"q{i}_success",
        toString (questionRateAt (results.filter fun r => r.participated && !r.cancelled)
          test.questions i) ++ "%") ∈ calculateQuestionSuccess results test) := by
  have hb : ∀ (valid : List ResultRec) (questions : List Question) (i : Nat),
      0 ≤ questionRateAt valid questions i ∧ questionRateAt valid questions i ≤ 100 := by
    intro valid questions i
    have hmp := questionMaxPoints_pos questions i
    have hearn := questionEarned_nonneg valid questions i
    unfold questionRateAt
    dsimp only
    split_ifs with h1 h2
    · constructor
      · exact le_min (by norm_num) (pyRoundInt_nonneg _ (by
          apply mul_nonneg _ (by norm_num)
          exact div_nonneg hearn (le_of_lt (mul_pos h1.1 (by exact_mod_cast h1.2)))))
      · exact min_le_left _ _
    · constructor
      · exact le_min (by norm_num) (pyRoundInt_nonneg _ (by
          apply mul_nonneg _ (by norm_num)
          apply div_nonneg _ (le_of_lt h2.2)
          exact div_nonneg hearn (by positivity)))
      · exact min_le_left _ _
    · norm_num
  refine ⟨?_, questionMaxPoints_pos, hb, ?_⟩
  · intro valid questions i hne
    have hmp := questionMaxPoints_pos questions i
    have hlen : 0 < valid.length := List.length_pos.mpr hne
    unfold questionRateAt
    dsimp only
    rw [if_pos ⟨hmp, hlen⟩]
    congr 1
    ring
  · intro results test i hne h1 h2
    have hqne : test.questions ≠ [] := by
      intro hempty
      rw [hempty] at h2
      simp at h2
      omega
    unfold calculateQuestionSuccess
    rw [if_neg (by simpa [List.isEmpty_iff] using hqne)]
    simp only [List.length_pos.mpr hqne, if_pos]
    rw [if_neg (by simpa [List.isEmpty_iff] using hne)]
    exact List.mem_map.mpr ⟨i, by
      rw [List.mem_range'_1]
      exact ⟨h1, by omega⟩, rfl⟩

/-- Witness for C3 at the spec scenario: one question with
`max_points = 2`, 10 valid results, 6 answering with 2 points — the
formula applies and evaluates to 60 %. -/
theorem C3_question_success_rate_witness :
    questionRateAt
        (List.replicate 6 (⟨.float 2, .none, .none, .none, true, false, Option.none,
            some [⟨.str "q1", .none, .none, .float 2, .none⟩]⟩ : ResultRec) ++
          List.replicate 4 ⟨.float 0, .none, .none, .none, true, false, Option.none,
            Option.none⟩)
        [⟨.str "q1", .float 2⟩] 1 =
      min 100 (pyRoundInt (100 * questionEarned
        (List.replicate 6 (⟨.float 2, .none, .none, .none, true, false, Option.none,
            some [⟨.str "q1", .none, .none, .float 2, .none⟩]⟩ : ResultRec) ++
          List.replicate 4 ⟨.float 0, .none, .none, .none, true, false, Option.none,
            Option.none⟩)
        [⟨.str "q1", .float 2⟩] 1 /
          (questionMaxPoints [⟨.str "q1", .float 2⟩] 1 * (10 : ℚ)))) ∧
    questionRateAt
        (List.replicate 6 (⟨.float 2, .none, .none, .none, true, false, Option.none,
            some [⟨.str "q1", .none, .none, .float 2, .none⟩]⟩ : ResultRec) ++
          List.replicate 4 ⟨.float 0, .none, .none, .none, true, false, Option.none,
            Option.none⟩)
        [⟨.str "q1", .float 2⟩] 1 = 60 := by
  constructor
  · exact C3_question_success_rate.1 _ _ 1 (by simp)
  · with_unfolding_all decide

/-- C4 (amended). Question success map domain: when the test's question
sequence is non-empty, the map has exactly one `"q{i}_success"` entry for
every ordinal `1..len(questions)` (each a `"{percent}%"` string); when the
question sequence is empty the calculator returns the empty map even if
the declared `total_questions` is positive. -/
theorem C4_question_success_domain :
    (∀ (results : List ResultRec) (test : TestDef),
      test.questions ≠ [] →
      ((calculateQuestionSuccess results test).map Prod.fst =
        (List.range' 1 test.questions.length).map (fun i => s!"q{i}_success")) ∧
      (∀ kv ∈ calculateQuestionSuccess results test,
        ∃ p : Int, kv.2 = toString p ++ "%")) ∧
    (∀ (results : List ResultRec) (test : TestDef),
      test.questions = [] → calculateQuestionSuccess results test = []) := by
  constructor
  · intro results test hne
    unfold calculateQuestionSuccess
    rw [if_neg (by simpa [List.isEmpty_iff] using hne)]
    simp only [List.length_pos.mpr hne, if_pos]
    split
    · constructor
      · simp [List.map_map, Function.comp]
      · intro kv hkv
        rcases List.mem_map.mp hkv with ⟨j, _, hj⟩
        refine ⟨0, ?_⟩
        rw [← hj]
        with_unfolding_all rfl
    · constructor
      · simp [List.map_map, Function.comp]
      · intro kv hkv
        rcases List.mem_map.mp hkv with ⟨j, _, hj⟩
        exact ⟨_, by rw [← hj]⟩
  · intro results test hq
    unfold calculateQuestionSuccess
    rw [if_pos (by simp [hq])]

/-- Counterexample for C4 as stated: with an empty question sequence and a
declared `total_questions = 3` (effective count 3 per the claim), the
calculator returns the empty map — no `"q1_success"` entry exists. -/
theorem C4_counterexample :
    calculateQuestionSuccess [] ⟨[], 3⟩ = [] ∧
    (calculateQuestionSuccess [] ⟨[], 3⟩).lookup "q1_success" = Option.none := by
  exact ⟨rfl, rfl⟩

/-- Witness for C4 at a one-question test and at the empty-questions edge. -/
theorem C4_question_success_domain_witness :
    ((calculateQuestionSuccess [] ⟨[⟨.str "q1", .float 2⟩], 1⟩).map Prod.fst =
      (List.range' 1 1).map fun i => s!"q{i}_success") ∧
    calculateQuestionSuccess [] ⟨[], 0⟩ = [] :=
  ⟨(C4_question_success_domain.1 [] ⟨[⟨.str "q1", .float 2⟩], 1⟩ (by simp)).1,
    C4_question_success_domain.2 [] ⟨[], 0⟩ rfl⟩

/-- The bucket a result lands in: its parsed grade pushed through the
rounding table, `Option.none` when no grade parses. -/
def resultBucket (r : ResultRec) : Option Nat :=
  match parsedGrade r with
  | some g => gradeBucketOf g
  | Option.none => Option.none

theorem gradeDistribution_eq_bump (l : List ResultRec) :
    gradeDistribution l = l.foldl (fun d r => bumpBucket d (resultBucket r)) ⟨0, 0, 0, 0, 0⟩ := by
  unfold gradeDistribution
  congr 1
  funext d r
  rcases hg : parsedGrade r with _ | g <;> simp only [resultBucket, hg] <;> rfl

theorem bumpBucket_field (d : GradeDist) (b : Option Nat) (n : Nat) :
    (bumpBucket d b).b6 = d.b6 + (if b = some 6 then 1 else 0) ∧
    (bumpBucket d b).b5 = d.b5 + (if b = some 5 then 1 else 0) ∧
    (bumpBucket d b).b4 = d.b4 + (if b = some 4 then 1 else 0) ∧
    (bumpBucket d b).b3 = d.b3 + (if b = some 3 then 1 else 0) ∧
    (bumpBucket d b).b2 = d.b2 + (if b = some 2 then 1 else 0) := by
  unfold bumpBucket
  split <;> simp_all

theorem countBucket (l : List ResultRec) (k : Nat)
    (proj : GradeDist → Nat)
    (hproj : ∀ d b, proj (bumpBucket d b) = proj d + (if b = some k then 1 else 0)) :
    ∀ d : GradeDist,
      proj (l.foldl (fun d r => bumpBucket d (resultBucket r)) d) =
        proj d + l.countP (fun r => resultBucket r == some k) := by
  induction l with
  | nil => intro d; simp
  | cons r t ih =>
    intro d
    rw [List.foldl_cons, ih, List.countP_cons, hproj]
    by_cases h : resultBucket r = some k <;> simp [h, beq_iff_eq] <;> omega

/-- `gradeBucketOf` only produces buckets `2..6`. -/
theorem gradeBucketOf_mem (g : ℚ) :
    gradeBucketOf g = Option.none ∨ ∃ k, gradeBucketOf g = some k ∧ 2 ≤ k ∧ k ≤ 6 := by
  unfold gradeBucketOf
  split_ifs <;> simp <;> omega

theorem bumpBucket_total (d : GradeDist) (r : ResultRec) :
    (bumpBucket d (resultBucket r)).total =
      d.total + (if (resultBucket r).isSome then 1 else 0) := by
  rcases hg : parsedGrade r with _ | g
  · simp [resultBucket, hg, bumpBucket, GradeDist.total]
  · simp only [resultBucket, hg]
    rcases gradeBucketOf_mem g with hb | ⟨k, hb, hk2, hk6⟩
    · simp [hb, bumpBucket, GradeDist.total]
    · rw [hb]
      have hf := bumpBucket_field d (some k) 0
      interval_cases k <;> simp_all [GradeDist.total] <;> omega

theorem countTotal (l : List ResultRec) :
    ∀ d : GradeDist,
      (l.foldl (fun d r => bumpBucket d (resultBucket r)) d).total =
        d.total + l.countP (fun r => (resultBucket r).isSome) := by
  induction l with
  | nil => intro d; simp
  | cons r t ih =>
    intro d
    rw [List.foldl_cons, ih, List.countP_cons, bumpBucket_total]
    cases h : (resultBucket r).isSome <;> simp [h] <;> omega

/-- The five counts and the total of the distribution, as `countP` over
the listed results. -/
theorem gradeDistribution_counts (l : List ResultRec) :
    (gradeDistribution l).b6 = l.countP (fun r => resultBucket r == some 6) ∧
    (gradeDistribution l).b5 = l.countP (fun r => resultBucket r == some 5) ∧
    (gradeDistribution l).b4 = l.countP (fun r => resultBucket r == some 4) ∧
    (gradeDistribution l).b3 = l.countP (fun r => resultBucket r == some 3) ∧
    (gradeDistribution l).b2 = l.countP (fun r => resultBucket r == some 2) ∧
    (gradeDistribution l).total = l.countP (fun r => (resultBucket r).isSome) := by
  rw [gradeDistribution_eq_bump]
  refine ⟨?_, ?_, ?_, ?_, ?_, ?_⟩
  · simpa using countBucket l 6 GradeDist.b6 (fun d b => (bumpBucket_field d b 0).1)
      ⟨0, 0, 0, 0, 0⟩
  · simpa using countBucket l 5 GradeDist.b5 (fun d b => (bumpBucket_field d b 0).2.1)
      ⟨0, 0, 0, 0, 0⟩
  · simpa using countBucket l 4 GradeDist.b4 (fun d b => (bumpBucket_field d b 0).2.2.1)
      ⟨0, 0, 0, 0, 0⟩
  · simpa using countBucket l 3 GradeDist.b3 (fun d b => (bumpBucket_field d b 0).2.2.2.1)
      ⟨0, 0, 0, 0, 0⟩
  · simpa using countBucket l 2 GradeDist.b2 (fun d b => (bumpBucket_field d b 0).2.2.2.2)
      ⟨0, 0, 0, 0, 0⟩
  · simpa [GradeDist.total] using countTotal l ⟨0, 0, 0, 0, 0⟩

theorem gradeBucket_six_iff (g : ℚ) : gradeBucketOf g = some 6 ↔ 5.5 ≤ g := by
  unfold gradeBucketOf
  split_ifs <;> simp_all <;> intros <;> linarith

theorem gradeBucket_five_iff (g : ℚ) :
    gradeBucketOf g = some 5 ↔ 4.5 ≤ g ∧ g < 5.5 := by
  unfold gradeBucketOf
  split_ifs <;> simp_all <;> intros <;>
    first | linarith | (constructor <;> linarith)

theorem gradeBucket_four_iff (g : ℚ) :
    gradeBucketOf g = some 4 ↔ 3.5 ≤ g ∧ g < 4.5 := by
  unfold gradeBucketOf
  split_ifs <;> simp_all <;> intros <;>
    first | linarith | (constructor <;> linarith)

theorem gradeBucket_three_iff (g : ℚ) :
    gradeBucketOf g = some 3 ↔ 2.5 ≤ g ∧ g < 3.5 := by
  unfold gradeBucketOf
  split_ifs <;> simp_all <;> intros <;>
    first | linarith | (constructor <;> linarith)

theorem gradeBucket_two_iff (g : ℚ) :
    gradeBucketOf g = some 2 ↔ 2 ≤ g ∧ g < 2.5 := by
  unfold gradeBucketOf
  split_ifs <;> simp_all <;> intros <;>
    first | linarith | (constructor <;> linarith)

theorem gradeBucket_none_iff (g : ℚ) : gradeBucketOf g = Option.none ↔ g < 2 := by
  unfold gradeBucketOf
  split_ifs <;> simp_all <;> intros <;> linarith

theorem resultBucket_isSome_iff (r : ResultRec) :
    (resultBucket r).isSome = true ↔ ∃ g, parsedGrade r = some g ∧ 2 ≤ g := by
  unfold resultBucket
  rcases hg : parsedGrade r with _ | g
  · simp
  · dsimp only
    constructor
    · intro h
      refine ⟨g, rfl, ?_⟩
      by_contra hlt
      rw [(gradeBucket_none_iff g).mpr (lt_of_not_le fun hx => hlt hx)] at h
      simp at h
    · intro ⟨g2, hg2, h2⟩
      injection hg2 with he
      subst he
      rcases gradeBucketOf_mem g with hb | ⟨k, hb, _, _⟩
      · rw [gradeBucket_none_iff g] at hb
        linarith
      · rw [hb]
        rfl

/-- Inversion of the statistics calculator success case. -/
theorem calculateStatistics_ok {students : List StudentRec} {results : List ResultRec}
    {test : TestDef} {st : Stats}
    (h : calculateStatistics students results test = .ok st) :
    ∃ ps, statsPoints (validResults results) = .ok ps ∧
      st = statsAssemble students results test ps := by
  unfold calculateStatistics at h
  cases hp : statsPoints (validResults results) with
  | error e => rw [hp] at h; exact absurd h (by simp [Except.map])
  | ok ps =>
    rw [hp] at h
    simp only [Except.map] at h
    injection h with h2
    exact ⟨ps, rfl, h2.symm⟩

theorem statsAssemble_participated (students : List StudentRec)
    (results : List ResultRec) (test : TestDef) (ps : ℚ × ℚ × ℚ × ℚ) :
    (statsAssemble students results test ps).participated_count =
      ((validResults results).filter fun r => r.participated && !r.cancelled).length := rfl

theorem statsAssemble_dist (students : List StudentRec)
    (results : List ResultRec) (test : TestDef) (ps : ℚ × ℚ × ℚ × ℚ) :
    (statsAssemble students results test ps).grade_distribution =
      gradeDistribution ((validResults results).filter fun r =>
        r.participated && !r.cancelled) := rfl

theorem statsAssemble_pass_rate (students : List StudentRec)
    (results : List ResultRec) (test : TestDef) (ps : ℚ × ℚ × ℚ × ℚ) :
    (statsAssemble students results test ps).pass_rate =
      (if ¬ ((validResults results).filter fun r =>
          r.participated && !r.cancelled).isEmpty then
        pyRoundTo
          ((((((gradeDistribution ((validResults results).filter fun r =>
                r.participated && !r.cancelled)).total : Int) -
              ((gradeDistribution ((validResults results).filter fun r =>
                r.participated && !r.cancelled)).b2 : Int) : Int) : ℚ) /
            ((((validResults results).filter fun r =>
              r.participated && !r.cancelled).length : Nat) : ℚ)) * 100) 1
      else 0) := by
  unfold statsAssemble
  dsimp only
  by_cases hc : ((validResults results).filter fun r =>
      r.participated && !r.cancelled).isEmpty = true <;>
    simp [hc]

/-- C5 (amended). Pass rate: the computed `pass_rate` is
`round₁((Σ buckets − bucket(2)) / participated_count × 100)` — the
numerator counts the grades assigned to buckets `3..6`, which coincides
with the claim's `participated_count − bucket(2)` only when every valid
participated result carries a parseable grade ≥ 2.00. -/
theorem C5_pass_rate :
    ∀ (students : List StudentRec) (results : List ResultRec) (test : TestDef)
      (st : Stats),
      calculateStatistics students results test = .ok st →
      0 < st.participated_count →
      st.pass_rate =
        pyRoundTo ((((st.grade_distribution.total : ℚ) -
          (st.grade_distribution.b2 : ℚ)) / (st.participated_count : ℚ)) * 100) 1 := by
  intro students results test st h hpos
  obtain ⟨ps, _, hst⟩ := calculateStatistics_ok h
  subst hst
  rw [statsAssemble_participated] at hpos
  rw [statsAssemble_pass_rate, statsAssemble_participated, statsAssemble_dist,
    if_pos]
  · congr 1
    push_cast
    ring
  · intro hx
    rw [List.isEmpty_iff] at hx
    rw [hx] at hpos
    simp at hpos

/-- Counterexample for C5 as stated: a single valid participated result
with no grade at all gives `participated_count = 1`, `bucket(2) = 0` and a
computed `pass_rate` of `0`, while the claim's formula
`(participated_count − bucket(2)) / participated_count × 100` demands
`100`. -/
theorem C5_counterexample :
    (calculateStatistics []
        [⟨.float 5, .none, .none, .none, true, false, Option.none, Option.none⟩]
        ⟨[], 0⟩).toOption.map
      (fun st => (st.pass_rate, st.participated_count, st.grade_distribution.b2)) =
      some (0, 1, 0) ∧
    pyRoundTo ((((1 : ℚ) - 0) / 1) * 100) 1 = 100 ∧ (0 : ℚ) ≠ 100 := by
  refine ⟨?_, ?_, ?_⟩
  · with_unfolding_all decide
  · with_unfolding_all decide
  · with_unfolding_all decide

/-- The spec's grade-list scenario: 20 students, 15 valid participated
results with grades 6,6,5,5,4,4,4,3,3,3,3,2,2,2,2 (points ten times the
grade). -/
def scStudents : List StudentRec := List.replicate 20 ⟨some "М"⟩

def scResults : List ResultRec :=
  ([6, 6, 5, 5, 4, 4, 4, 3, 3, 3, 3, 2, 2, 2, 2] : List ℚ).map fun g =>
    ⟨.float (g * 10), .none, .float g, .none, true, false, Option.none, Option.none⟩

def scTest : TestDef := ⟨[], 0⟩

set_option maxRecDepth 8000 in
/-- The scenario's points statistics:
min 20, max 60, average 36.0, average grade 3.60. -/
theorem scenario_stats_ok :
    calculateStatistics scStudents scResults scTest =
      .ok (statsAssemble scStudents scResults scTest (20, 60, 36, 18/5)) := by
  with_unfolding_all rfl

set_option maxRecDepth 8000 in
/-- Witness for C5 at the spec's grade-list scenario: the amended formula
applies and gives 73.3. -/
theorem C5_pass_rate_witness :
    (statsAssemble scStudents scResults scTest (20, 60, 36, 18/5)).pass_rate =
      733 / 10 := by
  have h := C5_pass_rate scStudents scResults scTest
    (statsAssemble scStudents scResults scTest (20, 60, 36, 18/5))
    scenario_stats_ok (by with_unfolding_all decide)
  rw [h]
  with_unfolding_all decide

/-- C6 (amended). Distribution sum bound: the five bucket counts sum to at
most `participated_count`, with equality exactly when every valid
participated result has a parseable grade ≥ 2.00 (a result whose grade is
missing or unparsable also breaks equality, not only one with a grade
below 2.00). -/
theorem C6_distribution_sum :
    ∀ (students : List StudentRec) (results : List ResultRec) (test : TestDef)
      (st : Stats),
      calculateStatistics students results test = .ok st →
      st.grade_distribution.total ≤ st.participated_count ∧
      (st.grade_distribution.total = st.participated_count ↔
        ∀ r ∈ (validResults results).filter (fun r => r.participated && !r.cancelled),
          ∃ g, parsedGrade r = some g ∧ 2 ≤ g) := by
  intro students results test st h
  obtain ⟨ps, _, hst⟩ := calculateStatistics_ok h
  subst hst
  rw [statsAssemble_dist, statsAssemble_participated]
  rw [(gradeDistribution_counts _).2.2.2.2.2]
  constructor
  · exact List.countP_le_length _
  · rw [List.countP_eq_length]
    simp only [resultBucket_isSome_iff]

/-- Counterexample for C6 as stated: with one valid participated result
whose grade is absent, no grade below 2.00 is present, yet the bucket
counts sum to 0 ≠ 1 = participated_count — the claim's "equality iff no
grade < 2.00 present" fails in the ← direction. -/
theorem C6_counterexample :
    (calculateStatistics []
        [⟨.float 5, .none, .none, .none, true, false, Option.none, Option.none⟩]
        ⟨[], 0⟩).toOption.map
      (fun st => (st.grade_distribution.total, st.participated_count)) =
      some (0, 1) ∧
    parsedGrade ⟨.float 5, .none, .none, .none, true, false, Option.none,
      Option.none⟩ = Option.none := by
  constructor
  · with_unfolding_all decide
  · rfl

/-- Witness for C6 at the spec's grade-list scenario: all 15 grades parse
and are ≥ 2, so the bound holds (with equality, 15 = 15). -/
theorem C6_distribution_sum_witness :
    (statsAssemble scStudents scResults scTest (20, 60, 36, 18/5)).grade_distribution.total ≤
      (statsAssemble scStudents scResults scTest (20, 60, 36, 18/5)).participated_count :=
  (C6_distribution_sum scStudents scResults scTest
    (statsAssemble scStudents scResults scTest (20, 60, 36, 18/5)) scenario_stats_ok).1

/-- C7. Grade bucket assignment: the rounding table maps a parsed grade
`g` to bucket 6/5/4/3/2 exactly on the descending, non-overlapping
threshold intervals, to no bucket below 2.00, and the computed
distribution counts each bucket over the valid participated results
accordingly. -/
theorem C7_grade_buckets :
    (∀ g : ℚ,
      (gradeBucketOf g = some 6 ↔ 5.5 ≤ g) ∧
      (gradeBucketOf g = some 5 ↔ 4.5 ≤ g ∧ g < 5.5) ∧
      (gradeBucketOf g = some 4 ↔ 3.5 ≤ g ∧ g < 4.5) ∧
      (gradeBucketOf g = some 3 ↔ 2.5 ≤ g ∧ g < 3.5) ∧
      (gradeBucketOf g = some 2 ↔ 2 ≤ g ∧ g < 2.5) ∧
      (gradeBucketOf g = Option.none ↔ g < 2)) ∧
    (∀ (students : List StudentRec) (results : List ResultRec) (test : TestDef)
      (st : Stats),
      calculateStatistics students results test = .ok st →
      st.grade_distribution.b6 =
        ((validResults results).filter fun r => r.participated && !r.cancelled).countP
          (fun r => resultBucket r == some 6) ∧
      st.grade_distribution.b5 =
        ((validResults results).filter fun r => r.participated && !r.cancelled).countP
          (fun r => resultBucket r == some 5) ∧
      st.grade_distribution.b4 =
        ((validResults results).filter fun r => r.participated && !r.cancelled).countP
          (fun r => resultBucket r == some 4) ∧
      st.grade_distribution.b3 =
        ((validResults results).filter fun r => r.participated && !r.cancelled).countP
          (fun r => resultBucket r == some 3) ∧
      st.grade_distribution.b2 =
        ((validResults results).filter fun r => r.participated && !r.cancelled).countP
          (fun r => resultBucket r == some 2)) := by
  constructor
  · intro g
    exact ⟨gradeBucket_six_iff g, gradeBucket_five_iff g, gradeBucket_four_iff g,
      gradeBucket_three_iff g, gradeBucket_two_iff g, gradeBucket_none_iff g⟩
  · intro students results test st h
    obtain ⟨ps, _, hst⟩ := calculateStatistics_ok h
    subst hst
    rw [statsAssemble_dist]
    have hc := gradeDistribution_counts
      ((validResults results).filter fun r => r.participated && !r.cancelled)
    exact ⟨hc.1, hc.2.1, hc.2.2.1, hc.2.2.2.1, hc.2.2.2.2.1⟩

/-- Witness for C7 at the threshold boundary grades and at the spec's
grade-list scenario. -/
theorem C7_grade_buckets_witness :
    gradeBucketOf 5.5 = some 6 ∧ gradeBucketOf 4.5 = some 5 ∧
    gradeBucketOf 3.5 = some 4 ∧ gradeBucketOf 2.5 = some 3 ∧
    gradeBucketOf 2 = some 2 ∧ gradeBucketOf (3/2) = Option.none ∧
    (statsAssemble scStudents scResults scTest (20, 60, 36, 18/5)).grade_distribution.b6 =
      ((validResults scResults).filter fun r => r.participated && !r.cancelled).countP
        (fun r => resultBucket r == some 6) :=
  ⟨(C7_grade_buckets.1 5.5).1.mpr (by norm_num),
    (C7_grade_buckets.1 4.5).2.1.mpr (by norm_num),
    (C7_grade_buckets.1 3.5).2.2.1.mpr (by norm_num),
    (C7_grade_buckets.1 2.5).2.2.2.1.mpr (by norm_num),
    (C7_grade_buckets.1 2).2.2.2.2.1.mpr (by norm_num),
    (C7_grade_buckets.1 (3/2)).2.2.2.2.2.mpr (by norm_num),
    (C7_grade_buckets.2 scStudents scResults scTest
      (statsAssemble scStudents scResults scTest (20, 60, 36, 18/5))
      scenario_stats_ok).1⟩

/-- C8. The claim says the Statistics Calculator never raises and
degrades every malformed field to a safe default; but a valid result
whose points value is a non-numeric string reaches the unguarded
`float(...)` at line 613 of `_calculate_statistics` and raises
`ValueError` (modelled as `.error`), contradicting the documented error
policy — a code bug. -/
theorem C8_statistics_raises :
    calculateStatistics []
      [⟨.str "abc", .none, .none, .none, true, false, Option.none, Option.none⟩]
      ⟨[], 0⟩ = .error () := by
  with_unfolding_all rfl

theorem lookup_mem_pairs {l : List (String × String)} {a b : String}
    (h : l.lookup a = some b) : (a, b) ∈ l := by
  induction l with
  | nil => simp [List.lookup] at h
  | cons kv t ih =>
    rw [List.lookup_cons] at h
    split at h
    · rename_i heq
      injection h with h2
      subst h2
      have h3 : a = kv.1 := by simpa [beq_iff_eq] using heq
      subst h3
      exact List.mem_cons_self _ _
    · exact List.mem_cons_of_mem _ (ih h)

theorem dropWhile_head_false (p : Char → Bool) :
    ∀ (l : List Char) (c : Char) (rest : List Char),
      l.dropWhile p = c :: rest → p c = false := by
  intro l
  induction l with
  | nil => intro c rest h; simp [List.dropWhile] at h
  | cons a t ih =>
    intro c rest h
    rw [List.dropWhile_cons] at h
    split at h
    · exact ih c rest h
    · injection h with h1 _
      subst h1
      simp_all

theorem pyStrip_eq_nil {l : List Char} (h : pyStrip l = []) :
    ∀ c ∈ l, c.isWhitespace = true := by
  unfold pyStrip at h
  rw [List.reverse_eq_nil_iff, List.dropWhile_eq_nil_iff] at h
  intro c hc
  rcases List.mem_append.mp
      ((List.takeWhile_append_dropWhile (p := Char.isWhitespace) (l := l)) ▸ hc) with
    htk | hdr
  · exact List.mem_takeWhile_imp htk
  · exact h c (by simpa using hdr)

theorem pyStrip_has_nonWs {l : List Char} (h : pyStrip l ≠ []) :
    ∃ c ∈ pyStrip l, c.isWhitespace = false := by
  unfold pyStrip at h ⊢
  rcases hd : (l.dropWhile Char.isWhitespace).reverse.dropWhile Char.isWhitespace with
    _ | ⟨c, rest⟩
  · rw [hd] at h; simp at h
  · exact ⟨c, by simp [hd], dropWhile_head_false _ _ _ _ hd⟩

theorem mem_joinNl {c : Char} {e : List Char} :
    ∀ {L : List (List Char)}, c ∈ e → e ∈ L → c ∈ joinNl L := by
  intro L
  induction L with
  | nil => intro _ h; simp at h
  | cons x xs ih =>
    intro hc hL
    rcases List.mem_cons.mp hL with he | he
    · subst he
      cases xs with
      | nil => simpa [joinNl] using hc
      | cons y t => simp [joinNl, hc]
    · cases xs with
      | nil => simp at he
      | cons y t =>
        simp only [joinNl]
        exact List.mem_append.mpr (Or.inr (List.mem_cons_of_mem _ (ih hc he)))

theorem string_mk_ne_empty {l : List Char} (h : l ≠ []) : String.mk l ≠ "" := by
  intro he
  exact h (by simpa using congrArg String.data he)

/-- Well-formedness of a sections dictionary: keys drawn from the five
canonical section keys without repetition, values non-empty. -/
def goodSections (secs : List (String × String)) : Prop :=
  (secs.map Prod.fst) ⊆ geminiSectionKeys ∧ (secs.map Prod.fst).Nodup ∧
    ∀ kv ∈ secs, kv.2 ≠ ""

theorem keys_dictSet (secs : List (String × String)) (k v : String) :
    (dictSet secs k v).map Prod.fst =
      if secs.any (fun kv => kv.1 = k) then secs.map Prod.fst
      else secs.map Prod.fst ++ [k] := by
  unfold dictSet
  split
  · rw [List.map_map]
    apply List.map_congr_left
    intro kv _
    by_cases hk : kv.1 = k <;> simp [hk]
  · simp

theorem mem_dictSet {secs : List (String × String)} {k v : String}
    {kv : String × String} (h : kv ∈ dictSet secs k v) :
    kv = (k, v) ∨ kv ∈ secs := by
  unfold dictSet at h
  split at h
  · rcases List.mem_map.mp h with ⟨kv0, hkv0, hrepl⟩
    by_cases hk : kv0.1 = k
    · rw [if_pos hk] at hrepl
      exact Or.inl hrepl.symm
    · rw [if_neg hk] at hrepl
      exact Or.inr (hrepl ▸ hkv0)
  · rcases List.mem_append.mp h with hm | hm
    · exact Or.inr hm
    · exact Or.inl (by simpa using hm)

theorem dictSet_good {secs : List (String × String)} {k v : String}
    (hg : goodSections secs) (hk : k ∈ geminiSectionKeys) (hv : v ≠ "") :
    goodSections (dictSet secs k v) := by
  obtain ⟨hsub, hnd, hval⟩ := hg
  refine ⟨?_, ?_, ?_⟩
  · rw [keys_dictSet]
    split
    · exact hsub
    · intro x hx
      rcases List.mem_append.mp hx with hm | hm
      · exact hsub hm
      · simpa using (by simpa using hm) ▸ hk
  · rw [keys_dictSet]
    split
    · exact hnd
    · rename_i hany
      rw [List.nodup_append]
      refine ⟨hnd, List.nodup_singleton k, ?_⟩
      intro x hx hxk
      have hxk2 : x = k := by simpa using hxk
      subst hxk2
      rcases List.mem_map.mp hx with ⟨kv0, hkv0, hfst⟩
      apply hany
      exact List.any_eq_true.mpr ⟨kv0, hkv0, by simp [hfst]⟩
  · intro kv hkv
    rcases mem_dictSet hkv with he | hm
    · rw [he]; exact hv
    · exact hval kv hm

theorem geminiHeaderOf_mem {l : List Char} {k : String}
    (h : geminiHeaderOf l = some k) : k ∈ geminiSectionKeys := by
  unfold geminiHeaderOf at h
  split_ifs at h <;> simp_all [geminiSectionKeys]

/-- Invariant carried through the line scanner. -/
def goodScan (st : ScanState) : Prop :=
  goodSections st.sections ∧
  (∀ k, st.current = some k → k ∈ geminiSectionKeys) ∧
  (∀ e ∈ st.buf, ∃ c ∈ e, c.isWhitespace = false)

theorem goodScan_init : goodScan ⟨[], Option.none, []⟩ := by
  unfold goodScan goodSections
  refine ⟨⟨?_, ?_, ?_⟩, ?_, ?_⟩
  · simp
  · simp
  · simp
  · intro k hk; cases hk
  · intro e he; simp at he

theorem closeSection_good {st : ScanState} (h : goodScan st) :
    goodSections (closeSection st) := by
  obtain ⟨secs, cur, buf⟩ := st
  obtain ⟨hg, hcur, hbuf⟩ := h
  dsimp only at hg hcur hbuf
  unfold closeSection
  dsimp only
  rcases cur with _ | k
  · exact hg
  · dsimp only
    split
    · exact hg
    · rename_i hne
      apply dictSet_good hg (hcur k rfl)
      apply string_mk_ne_empty
      intro hnil
      have hws := pyStrip_eq_nil hnil
      rcases hb : buf with _ | ⟨e, t⟩
      · rw [hb] at hne; simp at hne
      · subst hb
        obtain ⟨c, hce, hcw⟩ := hbuf e (List.mem_cons_self _ _)
        have hcj : c ∈ joinNl (e :: t) := mem_joinNl hce (List.mem_cons_self _ _)
        rw [hws c hcj] at hcw
        exact absurd hcw (by simp)

theorem scanStep_good {st : ScanState} (h : goodScan st) (line : List Char) :
    goodScan (scanStep st line) := by
  obtain ⟨secs, cur, buf⟩ := st
  have hclose := closeSection_good h
  obtain ⟨hg, hcur, hbuf⟩ := h
  dsimp only at hg hcur hbuf
  unfold scanStep
  dsimp only
  split
  · rename_i key hkey
    refine ⟨hclose, ?_, ?_⟩
    · intro k hk
      dsimp only at hk
      injection hk with hk2
      subst hk2
      exact geminiHeaderOf_mem hkey
    · intro e he
      simp at he
  · rename_i hkey
    split
    · rename_i hcond
      refine ⟨hg, hcur, ?_⟩
      intro e he
      dsimp only at he
      rcases List.mem_append.mp he with hm | hm
      · exact hbuf e hm
      · have he2 : e = pyStrip line := by simpa using hm
        subst he2
        exact pyStrip_has_nonWs (by
          intro hnil
          rw [hnil] at hcond
          simp at hcond)
    · exact ⟨hg, hcur, hbuf⟩

theorem foldl_scan_good (lines : List (List Char)) :
    ∀ st : ScanState, goodScan st → goodScan (lines.foldl scanStep st) := by
  induction lines with
  | nil => intro st h; exact h
  | cons l t ih =>
    intro st h
    rw [List.foldl_cons]
    exact ih _ (scanStep_good h l)

theorem tryPatterns_ne_empty {pats : List Rx} {l : List Char} {v : String}
    (h : tryPatterns pats l = some v) : v ≠ "" := by
  induction pats with
  | nil => simp [tryPatterns] at h
  | cons p rest ih =>
    unfold tryPatterns at h
    split at h
    · dsimp only at h
      split at h
      · exact ih h
      · rename_i hne
        injection h with h2
        subst h2
        exact string_mk_ne_empty (by simpa [List.isEmpty_iff] using hne)
    · exact ih h

theorem filterMap_keys_sublist {β : Type} (L : List (String × β))
    (f : String × β → Option String) :
    List.Sublist
      ((L.filterMap fun kp => (f kp).map fun c => (kp.1, c)).map Prod.fst)
      (L.map Prod.fst) := by
  induction L with
  | nil => simp
  | cons kp t ih =>
    rw [List.filterMap_cons]
    cases h : f kp
    · rw [List.map_cons]
      exact ih.cons _
    · rw [Option.map_some']
      rw [List.map_cons, List.map_cons]
      exact ih.cons₂ _

theorem geminiStage1_good (l : List Char) : goodSections (geminiStage1 l) := by
  have hsub : List.Sublist ((geminiStage1 l).map Prod.fst) geminiSectionKeys := by
    have := filterMap_keys_sublist geminiKeyedPatterns (fun kp => tryPatterns kp.2 l)
    simpa [geminiStage1, geminiKeyedPatterns, geminiSectionKeys] using this
  refine ⟨hsub.subset, hsub.nodup (by decide), ?_⟩
  intro kv hkv
  rcases List.mem_filterMap.mp hkv with ⟨kp, _, hf⟩
  cases hv : tryPatterns kp.2 l with
  | none => rw [hv] at hf; simp at hf
  | some v =>
    rw [hv] at hf
    simp only [Option.map_some'] at hf
    injection hf with hf2
    rw [← hf2]
    exact tryPatterns_ne_empty hv

/-- A sections dictionary with the invariant and at least five entries
covers the five keys exactly (as a permutation). -/
theorem goodSections_perm {secs : List (String × String)}
    (hg : goodSections secs) (hlen : 5 ≤ secs.length) :
    (secs.map Prod.fst).Perm geminiSectionKeys := by
  obtain ⟨hsub, hnd, _⟩ := hg
  have hsp : List.Subperm (secs.map Prod.fst) geminiSectionKeys := hnd.subperm hsub
  apply hsp.perm_of_length_le
  have : geminiSectionKeys.length = 5 := by decide
  rw [this, List.length_map]
  exact hlen

theorem geminiEmergency_good (s : List Char) :
    (geminiEmergency s).map Prod.fst = geminiSectionKeys ∧
    ∀ kv ∈ geminiEmergency s, kv.2 ≠ "" := by
  constructor
  · rfl
  · intro kv hkv
    simp only [geminiEmergency, List.mem_cons, List.not_mem_nil, or_false] at hkv
    rcases hkv with rfl | rfl | rfl | rfl | rfl <;> dsimp only <;> split
    all_goals first | decide | assumption

theorem geminiFallbackParse_good (s : String) :
    ((geminiFallbackParse s).map Prod.fst).Perm geminiSectionKeys ∧
    ∀ kv ∈ geminiFallbackParse s, kv.2 ≠ "" := by
  unfold geminiFallbackParse
  split
  · exact ⟨by decide, by decide⟩
  · dsimp only
    have hgood : goodSections (closeSection
        ((splitOnChar '\n' s.data).foldl scanStep ⟨[], Option.none, []⟩)) :=
      closeSection_good (foldl_scan_good _ _ goodScan_init)
    split
    · obtain ⟨hk, hv⟩ := geminiEmergency_good s.data
      exact ⟨hk ▸ List.Perm.refl _, hv⟩
    · rename_i hlen
      exact ⟨goodSections_perm hgood (by omega), hgood.2.2⟩

theorem groqTryPatterns_ne {pats : List Rx} {l : List Char} {v : String}
    (h : groqTryPatterns pats l = some v) : v ≠ "" := by
  induction pats with
  | nil => simp [groqTryPatterns] at h
  | cons p rest ih =>
    unfold groqTryPatterns at h
    split at h
    · dsimp only at h
      split at h
      · rename_i hc
        injection h with h2
        subst h2
        exact string_mk_ne_empty (by simpa [List.isEmpty_iff] using hc.1)
      · exact ih h
    · exact ih h

theorem groqStage1_values {l : List Char} :
    ∀ kv ∈ groqStage1 l, kv.2 ≠ "" := by
  intro kv hkv
  rcases List.mem_filterMap.mp hkv with ⟨kp, _, hf⟩
  cases hv : groqTryPatterns kp.2 l with
  | none => rw [hv] at hf; simp at hf
  | some v =>
    rw [hv] at hf
    simp only [Option.map_some'] at hf
    injection hf with hf2
    rw [← hf2]
    exact groqTryPatterns_ne hv

theorem groqSplitFold_values {secs : List (String × String)}
    (pairs : List (String × List Char))
    (hv : ∀ kv ∈ secs, kv.2 ≠ "") :
    ∀ kv ∈ groqSplitFold secs pairs, kv.2 ≠ "" := by
  induction pairs generalizing secs with
  | nil => exact hv
  | cons np t ih =>
    unfold groqSplitFold
    rw [List.foldl_cons]
    apply ih
    dsimp only
    split
    · exact hv
    · rename_i hne
      intro kv hkv
      rcases mem_dictSet hkv with he | hm
      · rw [he]
        exact string_mk_ne_empty (by simpa [List.isEmpty_iff] using hne)
      · exact hv kv hm

theorem fill_text_ne (n : String) :
    ("Не е налична информация за " ++ n ++ "." : String) ≠ "" := by
  intro h
  have h2 := congrArg String.length h
  rw [String.length_append, String.length_append] at h2
  have h3 : 0 < ("Не е налична информация за " : String).length := by decide
  have h4 : ("" : String).length = 0 := rfl
  omega

theorem groqFillMissing_values {secs : List (String × String)}
    (hv : ∀ kv ∈ secs, kv.2 ≠ "") :
    ∀ kv ∈ groqFillMissing secs, kv.2 ≠ "" := by
  unfold groqFillMissing
  have hgen : ∀ (names : List String) (secs : List (String × String)),
      (∀ kv ∈ secs, kv.2 ≠ "") →
      ∀ kv ∈ names.foldl
        (fun secs n =>
          if secs.any (fun kv => kv.1 = n) then secs
          else secs ++ [(n, "Не е налична информация за " ++ n ++ ".")]) secs,
        kv.2 ≠ "" := by
    intro names
    induction names with
    | nil => intro secs h; exact h
    | cons n t ih =>
      intro secs h
      rw [List.foldl_cons]
      apply ih
      split
      · exact h
      · intro kv hkv
        rcases List.mem_append.mp hkv with hm | hm
        · exact h kv hm
        · have : kv = (n, "Не е налична информация за " ++ n ++ ".") := by simpa using hm
          rw [this]
          exact fill_text_ne n
  exact hgen groqSectionNames secs hv

theorem groqDefaultFor_ne (k : String) : groqDefaultFor k ≠ "" := by
  unfold groqDefaultFor
  split_ifs <;> decide

theorem groqFinalize_keys (secs : List (String × String)) :
    (groqFinalize secs).map Prod.fst = geminiSectionKeys := by
  unfold groqFinalize
  rw [List.map_map]
  have hc : ∀ kv ∈ groqNameMapping,
      (Prod.fst ∘ fun kv => match secs.lookup kv.1 with
        | some v => (kv.2, v)
        | Option.none => (kv.2, groqDefaultFor kv.2)) kv = kv.2 := by
    intro kv _
    rcases hl : secs.lookup kv.1 with _ | v <;> simp [Function.comp, hl]
  rw [List.map_congr_left hc]
  rfl

theorem groqFinalize_values {secs : List (String × String)}
    (hv : ∀ kv ∈ secs, kv.2 ≠ "") :
    ∀ kv ∈ groqFinalize secs, kv.2 ≠ "" := by
  intro kv hkv
  rcases List.mem_map.mp hkv with ⟨kp, _, hf⟩
  cases hl : secs.lookup kp.1 with
  | none => rw [hl] at hf; rw [← hf]; exact groqDefaultFor_ne _
  | some v =>
    rw [hl] at hf
    rw [← hf]
    exact hv (kp.1, v) (lookup_mem_pairs hl)

/-- C2 (amended). Parser section coverage: for every input, both AI
response extractors return exactly the five named sections
(`lowest_results_analysis`, `highest_results_analysis`, `gaps_analysis`,
`results_analysis`, `improvement_measures`), each with a non-empty value,
and a fully empty (or whitespace-only) input short-circuits to the
placeholder set. The claim's "at least 10 characters after placeholder
substitution" does not hold for the extractors themselves (see the
counterexample); the 10-character placeholder substitution happens only in
gemini's `generate_analysis` post-processing. -/
theorem C2_parser_sections :
    (∀ s : String,
      ((geminiParseAiResponse s).map Prod.fst).Perm geminiSectionKeys ∧
      ∀ kv ∈ geminiParseAiResponse s, kv.2 ≠ "") ∧
    (∀ s : String, (pyStrip s.data).isEmpty = true →
      geminiParseAiResponse s = geminiDefaults) ∧
    (∀ s : String,
      (groqParseAiResponse s).map Prod.fst = geminiSectionKeys ∧
      ∀ kv ∈ groqParseAiResponse s, kv.2 ≠ "") ∧
    (∀ s : String, (pyStrip s.data).isEmpty = true →
      groqParseAiResponse s = groqEmptyDefaults) := by
  refine ⟨?_, ?_, ?_, ?_⟩
  · intro s
    unfold geminiParseAiResponse
    split
    · exact ⟨by decide, by decide⟩
    · dsimp only
      split
      · exact geminiFallbackParse_good s
      · rename_i hlen
        have hg := geminiStage1_good s.data
        exact ⟨goodSections_perm hg (by omega), hg.2.2⟩
  · intro s h
    unfold geminiParseAiResponse
    rw [if_pos h]
  · intro s
    unfold groqParseAiResponse
    split
    · exact ⟨by decide, by decide⟩
    · refine ⟨groqFinalize_keys _, groqFinalize_values ?_⟩
      unfold groqSectionsOf
      apply groqFillMissing_values
      dsimp only
      split
      · split
        · exact groqSplitFold_values _ groqStage1_values
        · exact groqStage1_values
      · exact groqStage1_values
  · intro s h
    unfold groqParseAiResponse
    rw [if_pos h]

/-- Counterexample for C2 as stated: on input `"abc"` the gemini parser
returns `"abc"` (3 characters) as the `lowest_results_analysis` section —
shorter than the claimed 10-character minimum. -/
theorem C2_counterexample :
    (geminiParseAiResponse "abc").lookup "lowest_results_analysis" = some "abc" ∧
    ("abc" : String).length < 10 := by
  constructor
  · with_unfolding_all decide
  · decide

/-- Witness for C2 at the empty input. -/
theorem C2_parser_sections_witness :
    geminiParseAiResponse "" = geminiDefaults ∧
    groqParseAiResponse "" = groqEmptyDefaults :=
  ⟨C2_parser_sections.2.1 "" (by decide), C2_parser_sections.2.2.2 "" (by decide)⟩

/-- C9 (amended). AI backend retry policy: when the first two attempts
fail — with any error text, rate-limited or not — the third attempt
decides the outcome. A successful third attempt returns its stripped text
for both backends (so a rate-limited failure on an early attempt is
retried, not surfaced immediately); when all three attempts fail, the
groq service raises the flagged error (`is_rate_limit = true`, with the
retry-after hint) only when the final attempt's error is rate-limited,
raising a generic unflagged error otherwise, while the gemini service
always raises a generic error carrying the last error's text. -/
theorem C9_ai_retry_policy (call : Nat → AIAttempt) (d1 d2 d3 t : String)
    (h1 : call 1 = .raises d1) (h2 : call 2 = .raises d2) :
    (call 3 = .returns t → pyStripS t = t → t ≠ "" →
       callGroqWithRetry call = .ok t ∧ callGeminiWithRetry call = .ok t) ∧
    (call 3 = .raises d3 →
       (groqIsRateLimitMsg d3 = false →
          callGroqWithRetry call =
            .error ⟨genericGroqMsg (some d3), false, Option.none⟩) ∧
       (groqIsRateLimitMsg d3 = true →
          callGroqWithRetry call =
            .error ⟨groqUserMsg (groqRetryAfter d3), true,
              some (groqRetryAfter d3)⟩) ∧
       callGeminiWithRetry call = .error (genericGeminiMsg (some d3))) := by
  constructor
  · intro h3 hstrip hne
    constructor
    · simp [callGroqWithRetry, groqAttemptLoop, evalAttempt, h1, h2, h3,
        hstrip, hne]
    · simp [callGeminiWithRetry, geminiAttemptLoop, evalAttempt, h1, h2, h3,
        hstrip, hne]
  · intro h3
    refine ⟨?_, ?_, ?_⟩
    · intro hrl
      simp [callGroqWithRetry, groqAttemptLoop, evalAttempt, h1, h2, h3, hrl]
    · intro hrl
      simp [callGroqWithRetry, groqAttemptLoop, evalAttempt, h1, h2, h3, hrl]
    · simp [callGeminiWithRetry, geminiAttemptLoop, evalAttempt, h1, h2, h3]

/-- A call schedule whose first attempt fails with a rate-limited error
and whose second attempt succeeds. -/
def c9call : Nat → AIAttempt := fun n =>
  if n = 1 then .raises "429 rate limit reached" else .returns "OK fine"

/-- Counterexample for C9 as stated: the first attempt fails with a
rate-limited error, yet the groq service does not surface it — the retry
loop treats it like a generic failure (because the attempt index is below
`max_retries`), and the second attempt's success is returned. -/
theorem C9_counterexample :
    groqIsRateLimitMsg "429 rate limit reached" = true ∧
    callGroqWithRetry c9call = .ok "OK fine" := by
  constructor
  · with_unfolding_all decide
  · with_unfolding_all rfl

/-- A call schedule that fails on every attempt, the last error
rate-limited with a retry hint. -/
def c9callFail : Nat → AIAttempt := fun n =>
  if n = 3 then .raises "429 quota, retry in 7.5s please"
  else .raises "connection reset"

/-- Witness for C9: with all three attempts failing and a rate-limited
final error hinting 7.5 seconds, groq raises the flagged error with
`retry_after = max(int(7.5), 5) = 7` and gemini raises its generic error. -/
theorem C9_ai_retry_policy_witness :
    callGroqWithRetry c9callFail =
      .error ⟨groqUserMsg (groqRetryAfter "429 quota, retry in 7.5s please"),
        true, some (groqRetryAfter "429 quota, retry in 7.5s please")⟩ ∧
    callGeminiWithRetry c9callFail =
      .error (genericGeminiMsg (some "429 quota, retry in 7.5s please")) := by
  have h := C9_ai_retry_policy c9callFail "connection reset" "connection reset"
    "429 quota, retry in 7.5s please" ""
    (by with_unfolding_all rfl) (by with_unfolding_all rfl)
  have h3 := h.2 (by with_unfolding_all rfl)
  exact ⟨h3.2.1 (by with_unfolding_all decide), h3.2.2⟩

end EduAnalytics
